import Mathlib

/-!
Shallow embedding of the c8rs CHIP-8 emulator core (crate `c8rs-core`):
the instruction decoder (`instructions.rs`), the 4096-byte memory
(`memory.rs`), the 64×32 XOR display (`display.rs`), the CPU execute
state machine (`cpu.rs`) and the scheduler command handling (`lib.rs`).

Machine integers are modelled as `Nat` with explicit `% 256` / `% 65536`
where the Rust code wraps.  Fallible operations (Rust index panics on
out-of-range memory accesses) return `Option`: `none` models the panic.
-/

set_option maxRecDepth 100000

namespace C8

/-- `Register` (instructions.rs): a register index `V0`–`VF`, always in
`0..=15`; modelled as `Fin 16`. -/
abbrev Register := Fin 16

/-- `impl From<u8> for Register` (instructions.rs:60): converts a nibble
to a register index.  The Rust code is `unreachable!` above 15; `parse`
only ever applies it to values `< 16`, where `% 16` is the identity. -/
def Register.ofNat (x : Nat) : Register := ⟨x % 16, Nat.mod_lt x (by omega)⟩

/-- `enum Instruction` (instructions.rs:85): the closed set of decoded
instruction variants, with `Unknown` as the catch-all. -/
inductive Instruction where
  | Cls
  | Ret
  | Jmp (addr : Nat)
  | Call (addr : Nat)
  | SkipEqImm (reg : Register) (byte : Nat)
  | SkipNEqImm (reg : Register) (byte : Nat)
  | SkipEqReg (regx : Register) (regy : Register)
  | LdImm (reg : Register) (byte : Nat)
  | AddImm (reg : Register) (byte : Nat)
  | LdReg (regx : Register) (regy : Register)
  | Or (regx : Register) (regy : Register)
  | And (regx : Register) (regy : Register)
  | Xor (regx : Register) (regy : Register)
  | AddReg (regx : Register) (regy : Register)
  | SubReg (regx : Register) (regy : Register)
  | Shr (regx : Register) (regy : Register)
  | SubN (regx : Register) (regy : Register)
  | Shl (regx : Register) (regy : Register)
  | SkipNEqReg (regx : Register) (regy : Register)
  | LdI (addr : Nat)
  | JmpReg (addr : Nat)
  | Rnd (reg : Register) (byte : Nat)
  | Drw (regx : Register) (regy : Register) (len : Nat)
  | SkipPressed (reg : Register)
  | SkipNotPressed (reg : Register)
  | LdDelayTimer (reg : Register)
  | LdKey (reg : Register)
  | SetDelayTimer (reg : Register)
  | SetSoundTimer (reg : Register)
  | AddI (reg : Register)
  | LdFont (reg : Register)
  | Bcd (reg : Register)
  | StoreRegs (reg : Register)
  | LoadRegs (reg : Register)
  | Unknown (op : Nat)
deriving DecidableEq

/-- `macro_rules! byte` (instructions.rs:1): `(n0 << 4) | n1`. -/
def mkByte (n0 n1 : Nat) : Nat := (n0 <<< 4) ||| n1

/-- `macro_rules! addr` (instructions.rs:7): `(n0 << 8) | (n1 << 4) | n2`. -/
def mkAddr (n0 n1 n2 : Nat) : Nat := (n0 <<< 8) ||| (n1 <<< 4) ||| n2

/-- `Instruction::parse` (instructions.rs:356): splits the 16-bit opcode
into four nibbles (`(op & 0xF000) >> 12` etc., written here with the
arithmetically identical `/` and `%`) and matches the opcode table. -/
def parse (op : Nat) : Instruction :=
  let op0 := op / 0x1000 % 0x10
  let op1 := op / 0x100 % 0x10
  let op2 := op / 0x10 % 0x10
  let op3 := op % 0x10
  match op0, op1, op2, op3 with
  | 0x0, 0x0, 0xE, 0x0 => .Cls
  | 0x0, 0x0, 0xE, 0xE => .Ret
  | 0x1, n0, n1, n2 => .Jmp (mkAddr n0 n1 n2)
  | 0x2, n0, n1, n2 => .Call (mkAddr n0 n1 n2)
  | 0x3, x, n0, n1 => .SkipEqImm (Register.ofNat x) (mkByte n0 n1)
  | 0x4, x, n0, n1 => .SkipNEqImm (Register.ofNat x) (mkByte n0 n1)
  | 0x5, x, y, 0x0 => .SkipEqReg (Register.ofNat x) (Register.ofNat y)
  | 0x6, x, n0, n1 => .LdImm (Register.ofNat x) (mkByte n0 n1)
  | 0x7, x, n0, n1 => .AddImm (Register.ofNat x) (mkByte n0 n1)
  | 0x8, x, y, 0x0 => .LdReg (Register.ofNat x) (Register.ofNat y)
  | 0x8, x, y, 0x1 => .Or (Register.ofNat x) (Register.ofNat y)
  | 0x8, x, y, 0x2 => .And (Register.ofNat x) (Register.ofNat y)
  | 0x8, x, y, 0x3 => .Xor (Register.ofNat x) (Register.ofNat y)
  | 0x8, x, y, 0x4 => .AddReg (Register.ofNat x) (Register.ofNat y)
  | 0x8, x, y, 0x5 => .SubReg (Register.ofNat x) (Register.ofNat y)
  | 0x8, x, y, 0x6 => .Shr (Register.ofNat x) (Register.ofNat y)
  | 0x8, x, y, 0x7 => .SubN (Register.ofNat x) (Register.ofNat y)
  | 0x8, x, y, 0xE => .Shl (Register.ofNat x) (Register.ofNat y)
  | 0x9, x, y, 0x0 => .SkipNEqReg (Register.ofNat x) (Register.ofNat y)
  | 0xA, n0, n1, n2 => .LdI (mkAddr n0 n1 n2)
  | 0xB, n0, n1, n2 => .JmpReg (mkAddr n0 n1 n2)
  | 0xC, x, n0, n1 => .Rnd (Register.ofNat x) (mkByte n0 n1)
  | 0xD, x, y, n => .Drw (Register.ofNat x) (Register.ofNat y) n
  | 0xE, x, 0x9, 0xE => .SkipPressed (Register.ofNat x)
  | 0xE, x, 0xA, 0x1 => .SkipNotPressed (Register.ofNat x)
  | 0xF, x, 0x0, 0x7 => .LdDelayTimer (Register.ofNat x)
  | 0xF, x, 0x0, 0xA => .LdKey (Register.ofNat x)
  | 0xF, x, 0x1, 0x5 => .SetDelayTimer (Register.ofNat x)
  | 0xF, x, 0x1, 0x8 => .SetSoundTimer (Register.ofNat x)
  | 0xF, x, 0x1, 0xE => .AddI (Register.ofNat x)
  | 0xF, x, 0x2, 0x9 => .LdFont (Register.ofNat x)
  | 0xF, x, 0x3, 0x3 => .Bcd (Register.ofNat x)
  | 0xF, x, 0x5, 0x5 => .StoreRegs (Register.ofNat x)
  | 0xF, x, 0x6, 0x5 => .LoadRegs (Register.ofNat x)
  | _, _, _, _ => .Unknown op

/-- `FONT_SPRITE_ADDR` (memory.rs:3). -/
def FONT_SPRITE_ADDR : Nat := 0x100

/-- `FONT_SPRITES` (memory.rs:4): the 80-byte font table. -/
def FONT_SPRITES : List Nat :=
  [0xF0, 0x90, 0x90, 0x90, 0xF0,
   0x20, 0x60, 0x20, 0x20, 0x70,
   0xF0, 0x10, 0xF0, 0x80, 0xF0,
   0xF0, 0x10, 0xF0, 0x10, 0xF0,
   0x90, 0x90, 0xF0, 0x10, 0x10,
   0xF0, 0x80, 0xF0, 0x10, 0xF0,
   0xF0, 0x80, 0xF0, 0x90, 0xF0,
   0xF0, 0x10, 0x20, 0x40, 0x40,
   0xF0, 0x90, 0xF0, 0x90, 0xF0,
   0xF0, 0x90, 0xF0, 0x10, 0xF0,
   0xF0, 0x90, 0xF0, 0x90, 0x90,
   0xE0, 0x90, 0xE0, 0x90, 0xE0,
   0xF0, 0x80, 0x80, 0x80, 0xF0,
   0xE0, 0x90, 0x90, 0x90, 0xE0,
   0xF0, 0x80, 0xF0, 0x80, 0xF0,
   0xF0, 0x80, 0xF0, 0x80, 0x80]

/-- `struct Memory` (memory.rs:24): the flat 4096-byte address space,
modelled as a list of bytes (length 4096 in every state the code builds). -/
structure Memory where
  bytes : List Nat
deriving DecidableEq

/-- `Memory::read_u8` (memory.rs:42): `self.bytes[addr]`; `none` models
the out-of-range index panic. -/
def Memory.read_u8 (m : Memory) (addr : Nat) : Option Nat :=
  m.bytes.get? addr

/-- `Memory::write_u8` (memory.rs:46): `self.bytes[addr] = val`; the
stored value is truncated to a byte (`val : u8`); `none` models the
out-of-range index panic. -/
def Memory.write_u8 (m : Memory) (addr : Nat) (val : Nat) : Option Memory :=
  if addr < m.bytes.length then some ⟨m.bytes.set addr (val % 256)⟩ else none

/-- `Memory::read_u16` (memory.rs:50): big-endian word
`(bytes[addr] << 8) | bytes[addr+1]`, written `b0 * 256 + b1` (identical
for byte values). -/
def Memory.read_u16 (m : Memory) (addr : Nat) : Option Nat :=
  (m.read_u8 addr).bind fun b0 => (m.read_u8 (addr + 1)).map fun b1 => b0 * 256 + b1

/-- `Memory::write_u16` (memory.rs:54): writes high byte `val >> 8` then
low byte `val as u8`. -/
def Memory.write_u16 (m : Memory) (addr : Nat) (val : Nat) : Option Memory :=
  (m.write_u8 addr (val / 256)).bind fun m1 => m1.write_u8 (addr + 1) (val % 256)

/-- `Memory::read` (memory.rs:59): the slice `bytes[addr..addr+len]`;
`none` models the slice-bounds panic. -/
def Memory.readSlice (m : Memory) (addr len : Nat) : Option (List Nat) :=
  if addr + len ≤ m.bytes.length then some ((m.bytes.drop addr).take len) else none

/-- `Memory::write` (memory.rs:64): `bytes[addr..addr+data.len()]
.copy_from_slice(data)`; `none` models the slice-bounds panic. -/
def Memory.writeSlice (m : Memory) (addr : Nat) (data : List Nat) : Option Memory :=
  if addr + data.length ≤ m.bytes.length then
    some ⟨m.bytes.take addr ++ data ++ m.bytes.drop (addr + data.length)⟩
  else none

/-- `Memory::default` (memory.rs:29): 4096 zero bytes. -/
def Memory.default : Memory := ⟨List.replicate 4096 0⟩

/-- `Memory::init` (memory.rs:35): zeroed memory with the ROM copied to
0x200 and the font table to `FONT_SPRITE_ADDR`. -/
def Memory.init (buf : List Nat) : Option Memory :=
  (Memory.default.writeSlice 0x200 buf).bind fun m => m.writeSlice FONT_SPRITE_ADDR FONT_SPRITES

/-- `struct Display` (display.rs:7): the 64×32 one-bit framebuffer
(`BitArray<[usize; 32]>`, 2048 bits), modelled as a list of booleans. -/
structure Display where
  buffer : List Bool
deriving DecidableEq

/-- `Display::default`: all 2048 pixels unset. -/
def Display.default : Display := ⟨List.replicate 2048 false⟩

/-- `Display::clear` (display.rs:12): zeroes the bit matrix. -/
def Display.clear (_ : Display) : Display := ⟨List.replicate 2048 false⟩

/-- `Display::set_pixel` (display.rs:33): XORs `bit` into the buffer at
flat index `i` and reports a set→unset transition; out-of-range indices
are ignored and report `false` (the `else` branch of `get_mut`). -/
def setPixel (buf : List Bool) (i : Nat) (bit : Bool) : List Bool × Bool :=
  if h : i < buf.length then
    let prev := buf.get ⟨i, h⟩
    let new := xor prev bit
    (buf.set i new, prev && !new)
  else (buf, false)

/-- `Display::draw_sprite` (display.rs:16): for each sprite row
(wrapping mod 32) and each of the 8 bits per row (wrapping mod 64), XOR
the bit into the framebuffer, accumulating the collision flag. -/
def drawSprite (buf : List Bool) (x y : Nat) (sprite : List Nat) : List Bool × Bool :=
  sprite.enum.foldl (fun acc p =>
    let py := (y + p.1) % 32
    (List.range 8).foldl (fun acc2 col =>
      let px := (x + col) % 64
      let bit := (p.2 &&& (1 <<< (7 - col))) != 0
      let r := setPixel acc2.1 (py * 64 + px) bit
      (r.1, acc2.2 || r.2)) acc) (buf, false)

/-- The flat list of (framebuffer index, sprite bit) pairs touched by
`draw_sprite`, in draw order: row-major over the sprite bytes, 8 columns
per row.  Used to state which pixels a draw touches. -/
def pixelOps (x y : Nat) (sprite : List Nat) : List (Nat × Bool) :=
  sprite.enum.flatMap fun p =>
    (List.range 8).map fun col =>
      (((y + p.1) % 32) * 64 + (x + col) % 64, (p.2 &&& (1 <<< (7 - col))) != 0)

/-- The buffer component of one `set_pixel` call. -/
def setPx (d : List Bool) (i : Nat) (b : Bool) : List Bool := (setPixel d i b).1

/-- One pixel-op applied to a (buffer, collision-accumulator) pair —
the loop body of `draw_sprite`. -/
def apply1 (a : List Bool × Bool) (op : Nat × Bool) : List Bool × Bool :=
  let r := setPixel a.1 op.1 op.2
  (r.1, a.2 || r.2)

/-- A list of pixel-ops applied in order. -/
def applyOps (a : List Bool × Bool) (ops : List (Nat × Bool)) : List Bool × Bool :=
  ops.foldl apply1 a

/-- The buffer after applying a list of pixel-ops. -/
def bufAfter (d : List Bool) (ops : List (Nat × Bool)) : List Bool :=
  ops.foldl (fun b op => setPx b op.1 op.2) d

/-- The collision flag accumulated while applying a list of pixel-ops. -/
def collAfter : List Bool → List (Nat × Bool) → Bool
  | _, [] => false
  | d, op :: t => (setPixel d op.1 op.2).2 || collAfter (setPx d op.1 op.2) t

/-- `struct Cpu` (cpu.rs:24): register file, timers, pc, sp, index
register, owned memory and display. -/
structure Cpu where
  registers : List Nat
  delay_timer : Nat
  sound_timer : Nat
  pc : Nat
  sp : Nat
  i : Nat
  mem : Memory
  display : Display
deriving DecidableEq

/-- `Cpu::new` (cpu.rs:39): zeroed registers and timers, `pc = 0x200`,
`sp = 0x1FE`, `i = 0`. -/
def Cpu.new (mem : Memory) (display : Display) : Cpu :=
  { registers := List.replicate 16 0
    delay_timer := 0
    sound_timer := 0
    pc := 0x200
    sp := 0x1FE
    i := 0
    mem := mem
    display := display }

/-- `Cpu::reset` (cpu.rs:55): restores `pc`/`sp` and clears the display. -/
def Cpu.reset (c : Cpu) : Cpu :=
  { c with pc := 0x200, sp := 0x1FE, display := c.display.clear }

/-- `Registers` read `self.registers[reg]` (cpu.rs:12): register files
built by the code always have length 16, so the default is never used. -/
def Cpu.reg (c : Cpu) (r : Register) : Nat := c.registers.getD r.val 0

/-- `Cpu::push_stack` (cpu.rs:194): write the word at `sp`, then
`sp -= 2` saturating. -/
def Cpu.push_stack (c : Cpu) (addr : Nat) : Option Cpu :=
  (c.mem.write_u16 c.sp addr).map fun m => { c with mem := m, sp := c.sp - 2 }

/-- `Cpu::pop_stack` (cpu.rs:199): `sp += 2` saturating at the u16
maximum, then read the word at the new `sp`. -/
def Cpu.pop_stack (c : Cpu) : Option (Nat × Cpu) :=
  let sp := min (c.sp + 2) 65535
  (c.mem.read_u16 sp).map fun v => (v, { c with sp := sp })

/-- u8 wrapping subtraction `a.wrapping_sub(b)`. -/
def wsub8 (a b : Nat) : Nat := (a % 256 + 256 - b % 256) % 256

/-- `Cpu::execute` (cpu.rs:73): executes one decoded instruction.  The
result is `some (next, c')` where `next` is the `Option<u16>` the Rust
function returns (`none` = halt, produced only by the self-targeting
jump) and `c'` the mutated CPU; the outer `none` models a memory-bounds
panic.  Each arm mirrors the source's mutation order (in particular the
`VF`-first writes of `Shr`/`Shl` and the `VF`-first comparison writes of
`SubReg`/`SubN`), and the final next-pc selection (cpu.rs:186): jump and
call instructions return the (mutated) `pc` itself, everything else
returns `pc.wrapping_add(2)`. -/
def execute (c : Cpu) (instr : Instruction) : Option (Option Nat × Cpu) :=
  match instr with
  | .Cls => some (some ((c.pc + 2) % 65536), { c with display := c.display.clear })
  | .Ret => c.pop_stack.map fun p => (some ((p.1 + 2) % 65536), { p.2 with pc := p.1 })
  | .Jmp addr =>
      if addr = c.pc then some (none, c) else some (some addr, { c with pc := addr })
  | .Call addr => (c.push_stack c.pc).map fun c1 => (some addr, { c1 with pc := addr })
  | .SkipEqImm reg byte =>
      let c1 := if c.reg reg = byte then { c with pc := (c.pc + 2) % 65536 } else c
      some (some ((c1.pc + 2) % 65536), c1)
  | .SkipNEqImm reg byte =>
      let c1 := if c.reg reg ≠ byte then { c with pc := (c.pc + 2) % 65536 } else c
      some (some ((c1.pc + 2) % 65536), c1)
  | .SkipEqReg rx ry =>
      let c1 := if c.reg rx = c.reg ry then { c with pc := (c.pc + 2) % 65536 } else c
      some (some ((c1.pc + 2) % 65536), c1)
  | .LdImm reg byte =>
      some (some ((c.pc + 2) % 65536), { c with registers := c.registers.set reg.val byte })
  | .AddImm reg byte =>
      some (some ((c.pc + 2) % 65536),
        { c with registers := c.registers.set reg.val ((c.reg reg + byte) % 256) })
  | .LdReg rx ry =>
      some (some ((c.pc + 2) % 65536), { c with registers := c.registers.set rx.val (c.reg ry) })
  | .Or rx ry =>
      some (some ((c.pc + 2) % 65536),
        { c with registers := c.registers.set rx.val (c.reg rx ||| c.reg ry) })
  | .And rx ry =>
      some (some ((c.pc + 2) % 65536),
        { c with registers := c.registers.set rx.val (c.reg rx &&& c.reg ry) })
  | .Xor rx ry =>
      some (some ((c.pc + 2) % 65536),
        { c with registers := c.registers.set rx.val (c.reg rx ^^^ c.reg ry) })
  | .AddReg rx ry =>
      let v := c.reg rx + c.reg ry
      let regs1 := c.registers.set rx.val (v % 256)
      let regs2 := regs1.set 15 (if 256 ≤ v then 1 else 0)
      some (some ((c.pc + 2) % 65536), { c with registers := regs2 })
  | .SubReg rx ry =>
      let regs1 := c.registers.set 15 (if c.reg ry < c.reg rx then 1 else 0)
      let regs2 := regs1.set rx.val (wsub8 (regs1.getD rx.val 0) (regs1.getD ry.val 0))
      some (some ((c.pc + 2) % 65536), { c with registers := regs2 })
  | .Shr rx ry =>
      let regs1 := c.registers.set 15 (c.reg ry &&& 0x01)
      let regs2 := regs1.set rx.val (regs1.getD ry.val 0 >>> 1)
      some (some ((c.pc + 2) % 65536), { c with registers := regs2 })
  | .SubN rx ry =>
      let regs1 := c.registers.set 15 (if c.reg rx < c.reg ry then 1 else 0)
      let regs2 := regs1.set rx.val (wsub8 (regs1.getD ry.val 0) (regs1.getD rx.val 0))
      some (some ((c.pc + 2) % 65536), { c with registers := regs2 })
  | .Shl rx ry =>
      let regs1 := c.registers.set 15 (c.reg ry &&& 0x80)
      let regs2 := regs1.set rx.val ((regs1.getD ry.val 0 <<< 1) % 256)
      some (some ((c.pc + 2) % 65536), { c with registers := regs2 })
  | .SkipNEqReg rx ry =>
      let c1 := if c.reg rx ≠ c.reg ry then { c with pc := min (c.pc + 2) 65535 } else c
      some (some ((c1.pc + 2) % 65536), c1)
  | .LdI addr => some (some ((c.pc + 2) % 65536), { c with i := addr })
  | .JmpReg addr =>
      let t := addr + c.reg 0
      some (some t, { c with pc := t })
  | .Rnd _ _ => some (some ((c.pc + 2) % 65536), c)
  | .Drw rx ry len =>
      (c.mem.readSlice c.i len).map fun sprite =>
        let r := drawSprite c.display.buffer (c.reg rx) (c.reg ry) sprite
        (some ((c.pc + 2) % 65536),
          { c with display := ⟨r.1⟩,
                   registers := c.registers.set 15 (if r.2 then 1 else 0) })
  | .SkipPressed _ => some (some ((c.pc + 2) % 65536), c)
  | .SkipNotPressed _ => some (some ((c.pc + 2) % 65536), c)
  | .LdDelayTimer reg =>
      some (some ((c.pc + 2) % 65536),
        { c with registers := c.registers.set reg.val c.delay_timer })
  | .LdKey _ => some (some ((c.pc + 2) % 65536), c)
  | .SetDelayTimer reg => some (some ((c.pc + 2) % 65536), { c with delay_timer := c.reg reg })
  | .SetSoundTimer reg => some (some ((c.pc + 2) % 65536), { c with sound_timer := c.reg reg })
  | .AddI reg => some (some ((c.pc + 2) % 65536), { c with i := (c.i + c.reg reg) % 65536 })
  | .LdFont reg =>
      some (some ((c.pc + 2) % 65536), { c with i := FONT_SPRITE_ADDR + c.reg reg * 5 })
  | .Bcd reg =>
      let v := c.reg reg
      ((c.mem.write_u8 c.i (v / 100)).bind fun m1 =>
        (m1.write_u8 (c.i + 1) (v / 10 % 10)).bind fun m2 =>
          m2.write_u8 (c.i + 2) (v % 10)).map fun m3 =>
        (some ((c.pc + 2) % 65536), { c with mem := m3 })
  | .StoreRegs reg =>
      ((List.range (reg.val + 1)).foldlM
          (fun m k => Memory.write_u8 m (c.i + k) (c.registers.getD k 0)) c.mem).map
        fun m => (some ((c.pc + 2) % 65536), { c with mem := m })
  | .LoadRegs reg =>
      ((List.range (reg.val + 1)).foldlM
          (fun regs k => (c.mem.read_u8 (c.i + k)).map fun v => regs.set k v) c.registers).map
        fun regs => (some ((c.pc + 2) % 65536), { c with registers := regs })
  | .Unknown _ => some (some ((c.pc + 2) % 65536), c)

/-- `Cpu::step` (cpu.rs:61): fetch the big-endian word at `pc`, decode,
execute; `Some(pc)` assigns the next pc and reports `false`, `None`
reports halted (`true`).  The outer `none` models a panic. -/
def Cpu.step (c : Cpu) : Option (Bool × Cpu) :=
  match c.mem.read_u16 c.pc with
  | none => none
  | some w =>
    match execute c (parse w) with
    | none => none
    | some (some pc, c') => some (false, { c' with pc := pc })
    | some (none, c') => some (true, c')

/-- Repeated stepping: run `n` steps, stopping early on the halt signal;
`none` models a panic in some step. -/
def stepN : Nat → Cpu → Option Cpu
  | 0, c => some c
  | n + 1, c =>
    match c.step with
    | none => none
    | some (true, c') => some c'
    | some (false, c') => stepN n c'

/-- `enum EmulatorState` (lib.rs:31). -/
inductive EmulatorState where
  | Running
  | Paused
  | Halted
deriving DecidableEq

/-- `enum DebugCommand` (debug.rs:5). -/
inductive DebugCommand where
  | Step
  | Pause
  | Continue
  | Breakpoint (addr : Nat)
  | SetPc (addr : Nat)
  | Reset
  | IPS (ips : Nat)
deriving DecidableEq

/-- `enum EmulatorCommand` (lib.rs:25). -/
inductive EmulatorCommand where
  | Stop
  | DebugCommand (cmd : C8.DebugCommand)
deriving DecidableEq

/-- `struct Chip8EmulatorInner` (lib.rs:74): the scheduler state owned by
the emulator thread; the breakpoint set is modelled as a list. -/
structure Chip8EmulatorInner where
  ips : Nat
  state : EmulatorState
  cpu : Cpu
  breakpoints : List Nat
deriving DecidableEq

/-- `Chip8EmulatorInner::handle_debug_cmd` (lib.rs:123): returns whether
the tick should fall through to a CPU step (`true`) or `continue`
(`false`). -/
def handleDebugCmd (s : Chip8EmulatorInner) (cmd : DebugCommand) : Bool × Chip8EmulatorInner :=
  match cmd with
  | .Step => (true, s)
  | .Pause => (false, { s with state := .Paused })
  | .Continue => (true, { s with state := .Running })
  | .Breakpoint addr =>
      if s.breakpoints.contains addr then
        (false, { s with breakpoints := s.breakpoints.erase addr })
      else
        (false, { s with breakpoints := addr :: s.breakpoints })
  | .Reset => (false, { s with cpu := s.cpu.reset })
  | .SetPc addr => (false, { s with cpu := { s.cpu with pc := addr } })
  | .IPS _ => (false, s)

/-- The outcome of one iteration of the scheduler loop
(`Chip8EmulatorInner::run`, lib.rs:83): the loop breaks (`Stop`),
continues with a new state, or the CPU step panics. -/
inductive TickResult where
  | stop
  | cont (s : Chip8EmulatorInner)
  | crash
deriving DecidableEq

/-- The step-and-halt-check tail of the loop body (lib.rs:114):
`if self.cpu.step() { self.state = Halted }`. -/
def doStep (s : Chip8EmulatorInner) : TickResult :=
  match s.cpu.step with
  | none => .crash
  | some (true, c') => .cont { s with cpu := c', state := .Halted }
  | some (false, c') => .cont { s with cpu := c' }

/-- One iteration of `Chip8EmulatorInner::run`'s loop (lib.rs:86-120):
breakpoint check forcing `Paused`, then command processing (`cmd` is the
command obtained from the channel this iteration, `none` if none was),
then — unless the command handler said `continue` — one CPU step. -/
def tick (s : Chip8EmulatorInner) (cmd : Option EmulatorCommand) : TickResult :=
  let s := if s.breakpoints.contains s.cpu.pc then { s with state := .Paused } else s
  match cmd with
  | some .Stop => .stop
  | some (.DebugCommand (.IPS n)) => .cont { s with ips := n }
  | some (.DebugCommand c) =>
      let r := handleDebugCmd s c
      if r.1 then doStep r.2 else .cont r.2
  | none => doStep s

/-- The canonical 16-bit encoding of each decodable instruction variant,
per the opcode forms documented on `enum Instruction`
(instructions.rs:85-310): `1nnn`, `3xkk`, `8xy4`, `Dxyn`, `Fx33`, ….
`Unknown` has no documented encoding. -/
def encode : Instruction → Option Nat
  | .Cls => some 0x00E0
  | .Ret => some 0x00EE
  | .Jmp a => some (0x1000 + a)
  | .Call a => some (0x2000 + a)
  | .SkipEqImm r b => some (0x3000 + r.val * 0x100 + b)
  | .SkipNEqImm r b => some (0x4000 + r.val * 0x100 + b)
  | .SkipEqReg x y => some (0x5000 + x.val * 0x100 + y.val * 0x10)
  | .LdImm r b => some (0x6000 + r.val * 0x100 + b)
  | .AddImm r b => some (0x7000 + r.val * 0x100 + b)
  | .LdReg x y => some (0x8000 + x.val * 0x100 + y.val * 0x10)
  | .Or x y => some (0x8001 + x.val * 0x100 + y.val * 0x10)
  | .And x y => some (0x8002 + x.val * 0x100 + y.val * 0x10)
  | .Xor x y => some (0x8003 + x.val * 0x100 + y.val * 0x10)
  | .AddReg x y => some (0x8004 + x.val * 0x100 + y.val * 0x10)
  | .SubReg x y => some (0x8005 + x.val * 0x100 + y.val * 0x10)
  | .Shr x y => some (0x8006 + x.val * 0x100 + y.val * 0x10)
  | .SubN x y => some (0x8007 + x.val * 0x100 + y.val * 0x10)
  | .Shl x y => some (0x800E + x.val * 0x100 + y.val * 0x10)
  | .SkipNEqReg x y => some (0x9000 + x.val * 0x100 + y.val * 0x10)
  | .LdI a => some (0xA000 + a)
  | .JmpReg a => some (0xB000 + a)
  | .Rnd r b => some (0xC000 + r.val * 0x100 + b)
  | .Drw x y n => some (0xD000 + x.val * 0x100 + y.val * 0x10 + n)
  | .SkipPressed r => some (0xE09E + r.val * 0x100)
  | .SkipNotPressed r => some (0xE0A1 + r.val * 0x100)
  | .LdDelayTimer r => some (0xF007 + r.val * 0x100)
  | .LdKey r => some (0xF00A + r.val * 0x100)
  | .SetDelayTimer r => some (0xF015 + r.val * 0x100)
  | .SetSoundTimer r => some (0xF018 + r.val * 0x100)
  | .AddI r => some (0xF01E + r.val * 0x100)
  | .LdFont r => some (0xF029 + r.val * 0x100)
  | .Bcd r => some (0xF033 + r.val * 0x100)
  | .StoreRegs r => some (0xF055 + r.val * 0x100)
  | .LoadRegs r => some (0xF065 + r.val * 0x100)
  | .Unknown _ => none

/-- Operand well-formedness: immediates are 8-bit, addresses 12-bit,
sprite lengths 4-bit (register indices are in range by type). -/
def wfInstr : Instruction → Bool
  | .Jmp a => decide (a < 4096)
  | .Call a => decide (a < 4096)
  | .LdI a => decide (a < 4096)
  | .JmpReg a => decide (a < 4096)
  | .SkipEqImm _ b => decide (b < 256)
  | .SkipNEqImm _ b => decide (b < 256)
  | .LdImm _ b => decide (b < 256)
  | .AddImm _ b => decide (b < 256)
  | .Rnd _ b => decide (b < 256)
  | .Drw _ _ n => decide (n < 16)
  | .Unknown _ => false
  | _ => true

/-- Concrete CPU with `V15 = 5` and all other registers zero (memory and
display empty: `Shr` touches neither). -/
def cpuC1 : Cpu :=
  { Cpu.new ⟨[]⟩ ⟨[]⟩ with registers := (List.replicate 16 0).set 15 5 }

/-- Concrete CPU with `V15 = 5`, `V0 = 3`. -/
def cpuC2 : Cpu :=
  { Cpu.new ⟨[]⟩ ⟨[]⟩ with registers := ((List.replicate 16 0).set 15 5).set 0 3 }

/-- ROM: `Call 0x300` at 0x200, `Ret` at 0x300. -/
def romC3 : List Nat := [0x23, 0x00] ++ List.replicate 254 0 ++ [0x00, 0xEE]

/-- ROM: `LdI 0xFFF` then `Bcd V1` — drives a memory write to 0x1001. -/
def romC8 : List Nat := [0xAF, 0xFF, 0xF1, 0x33]

/-- A CPU whose fetched word is `0x1000`, a jump to 0 — its own pc:
the self-targeting-jump halt case. -/
def cpuW4 : Cpu := { Cpu.new ⟨[0x10, 0x00]⟩ ⟨[]⟩ with pc := 0 }

/-- A concrete CPU about to run `Call 0x10` (at pc 0) whose target holds
`Ret`; `sp = 10`. -/
def cpuC3 : Cpu :=
  { Cpu.new ⟨[0x20, 0x10] ++ List.replicate 14 0 ++ [0x00, 0xEE]⟩ ⟨[]⟩ with pc := 0, sp := 10 }

/-- The memory produced by `Memory.init romC8`, written out: zeroes,
font table at 0x100, the ROM at 0x200 (index 512), zeroes to 4096. -/
def memInit8 : Memory :=
  ⟨(List.replicate 256 0 ++ FONT_SPRITES) ++
    ((List.replicate 176 0 ++ romC8) ++ List.replicate 3580 0)⟩

/-- The CPU after executing the `LdI 0xFFF` of `romC8`. -/
def cpuMid8 : Cpu := { Cpu.new memInit8 Display.default with pc := 514, i := 0xFFF }

/-- A scheduler state in `Running`, with no breakpoints. -/
def innerRunning : Chip8EmulatorInner :=
  { ips := 10, state := .Running, cpu := Cpu.new Memory.default Display.default,
    breakpoints := [] }

/-- A scheduler state in `Paused`, with no breakpoints and a two-byte
memory holding the word `0x0000` at pc 0. -/
def innerPaused : Chip8EmulatorInner :=
  { ips := 10, state := .Paused, cpu := { Cpu.new ⟨[0x00, 0x00]⟩ ⟨[]⟩ with pc := 0 },
    breakpoints := [] }

/-- The CPU of `innerPaused` after one step (fetches `0x0000`, a no-op
`Unknown`, and advances the pc). -/
def cpuPausedStepped : Cpu := { Cpu.new ⟨[0x00, 0x00]⟩ ⟨[]⟩ with pc := 2 }

lemma getD_set_lt {α} (l : List α) (i : Nat) (a d : α) (h : i < l.length) :
    (l.set i a).getD i d = a := by
  simp [List.getD_eq_getElem?_getD, List.getElem?_set_self h]

lemma getD_set_ne {α} (l : List α) (i j : Nat) (a d : α) (h : i ≠ j) :
    (l.set i a).getD j d = l.getD j d := by
  simp [List.getD_eq_getElem?_getD, List.getElem?_set_ne h]

/-- **C5 — counterexample.**  The claim says processing `Reset` in any
scheduler state transitions the state to `Paused`; on the concrete
`Running` state it leaves the state `Running`. -/
theorem c5_reset_counterexample :
    (handleDebugCmd innerRunning .Reset).2.state = EmulatorState.Running ∧
    EmulatorState.Running ≠ EmulatorState.Paused :=
  ⟨rfl, by decide⟩

/-- **C5 (amended).**  Processing a `Reset` command restores `pc` to
0x200 and `sp` to 0x1FE and clears every display bit, but leaves the
scheduler state unchanged (it does not transition to `Paused`); the
handler returns `false`, so the tick executes no instruction. -/
theorem c5_reset_amended (s : Chip8EmulatorInner) :
    handleDebugCmd s .Reset =
      (false,
        { s with
          cpu := { s.cpu with pc := 0x200, sp := 0x1FE, display := ⟨List.replicate 2048 false⟩ } }) :=
  rfl

/-- **C10.**  Processing `Reset` leaves the sixteen registers, the index
register `i`, both timers, all 4096 memory bytes, the ips rate, the
scheduler state, and the breakpoint set unchanged; only `pc`, `sp` and
the display buffer are modified (to 0x200, 0x1FE and all-unset). -/
theorem c10_reset_frame (s : Chip8EmulatorInner) :
    (handleDebugCmd s .Reset).2.cpu.registers = s.cpu.registers ∧
    (handleDebugCmd s .Reset).2.cpu.i = s.cpu.i ∧
    (handleDebugCmd s .Reset).2.cpu.delay_timer = s.cpu.delay_timer ∧
    (handleDebugCmd s .Reset).2.cpu.sound_timer = s.cpu.sound_timer ∧
    (handleDebugCmd s .Reset).2.cpu.mem = s.cpu.mem ∧
    (handleDebugCmd s .Reset).2.ips = s.ips ∧
    (handleDebugCmd s .Reset).2.state = s.state ∧
    (handleDebugCmd s .Reset).2.breakpoints = s.breakpoints ∧
    (handleDebugCmd s .Reset).2.cpu.pc = 0x200 ∧
    (handleDebugCmd s .Reset).2.cpu.sp = 0x1FE ∧
    (handleDebugCmd s .Reset).2.cpu.display = ⟨List.replicate 2048 false⟩ :=
  ⟨rfl, rfl, rfl, rfl, rfl, rfl, rfl, rfl, rfl, rfl, rfl⟩

/-- **C1 — counterexample.**  The claim quantifies over all register
pairs including the flag register.  With `regy = 15` and `V15 = 5`,
`Shr{regx = 0, regy = 15}` writes `0` into `V0` (the `VF := regy & 1`
write happens first and is what gets shifted), while the claim demands
the original `regy >> 1 = 2`. -/
theorem c1_shr_counterexample :
    (execute cpuC1 (.Shr 0 15)).map (fun p => p.2.registers.getD 0 0) = some 0 ∧
    cpuC1.registers.getD 15 0 >>> 1 = 2 ∧ (0 : Nat) ≠ 2 :=
  ⟨rfl, rfl, by decide⟩

/-- **C1 (amended).**  For register indices `regx ≠ 15` and `regy ≠ 15`,
executing `Shr{regx, regy}` writes the original `regy >> 1` into `regx`
and sets the flag register to `regy`'s original bit 0, regardless of
`regx`'s prior value.  (When either index is 15 the flag write, which
happens first, interferes.) -/
theorem c1_shr (c : Cpu) (rx ry : Register) (h16 : c.registers.length = 16)
    (hx : rx.val ≠ 15) (hy : ry.val ≠ 15) :
    ∃ c', execute c (.Shr rx ry) = some (some ((c.pc + 2) % 65536), c') ∧
      c'.registers.getD rx.val 0 = c.reg ry >>> 1 ∧
      c'.registers.getD 15 0 = c.reg ry &&& 1 := by
  refine ⟨_, rfl, ?_, ?_⟩
  · rw [getD_set_lt _ _ _ _ (by simp [List.length_set, h16, rx.isLt]),
      getD_set_ne _ 15 ry.val _ _ (fun h => hy h.symm)]
    rfl
  · rw [getD_set_ne _ rx.val 15 _ _ hx, getD_set_lt _ _ _ _ (by simp [h16])]

/-- **C1 — witness** for `c1_shr` at a concrete CPU. -/
theorem c1_shr_witness :
    (Cpu.new ⟨[]⟩ ⟨[]⟩).registers.length = 16 ∧
    ((0 : Register).val ≠ 15) ∧ ((1 : Register).val ≠ 15) ∧
    (∃ c', execute (Cpu.new ⟨[]⟩ ⟨[]⟩) (.Shr 0 1) =
        some (some (((Cpu.new ⟨[]⟩ ⟨[]⟩).pc + 2) % 65536), c') ∧
      c'.registers.getD (0 : Register).val 0 = (Cpu.new ⟨[]⟩ ⟨[]⟩).reg 1 >>> 1 ∧
      c'.registers.getD 15 0 = (Cpu.new ⟨[]⟩ ⟨[]⟩).reg 1 &&& 1) :=
  ⟨by decide, by decide, by decide, c1_shr _ 0 1 (by decide) (by decide) (by decide)⟩

/-- **C2 — counterexample.**  The claim quantifies over all register
pairs including `regx = 15`.  With `V15 = 5`, `V0 = 3`, executing
`AddReg{regx = 15, regy = 0}` leaves `V15 = 0` (the carry-flag write
overwrites the sum), while the claim demands `(5+3) mod 256 = 8`. -/
theorem c2_addreg_counterexample :
    (execute cpuC2 (.AddReg 15 0)).map (fun p => p.2.registers.getD 15 0) = some 0 ∧
    (cpuC2.registers.getD 15 0 + cpuC2.registers.getD 0 0) % 256 = 8 ∧ (0 : Nat) ≠ 8 :=
  ⟨rfl, rfl, by decide⟩

/-- **C2 (amended).**  For `regx ≠ 15` (and any `regy`, including 15),
executing `AddReg{regx, regy}` with initial values `a = regx`,
`b = regy` leaves `regx = (a+b) mod 256` and the flag register `= 1` iff
`a+b ≥ 256`, else `0`.  (For `regx = 15` the flag write, which happens
second, overwrites the sum.) -/
theorem c2_addreg (c : Cpu) (rx ry : Register) (h16 : c.registers.length = 16)
    (hx : rx.val ≠ 15) :
    ∃ c', execute c (.AddReg rx ry) = some (some ((c.pc + 2) % 65536), c') ∧
      c'.registers.getD rx.val 0 = (c.reg rx + c.reg ry) % 256 ∧
      c'.registers.getD 15 0 = if 256 ≤ c.reg rx + c.reg ry then 1 else 0 := by
  refine ⟨_, rfl, ?_, ?_⟩
  · rw [getD_set_ne _ 15 rx.val _ _ (fun h => hx h.symm),
      getD_set_lt _ _ _ _ (by simp [h16, rx.isLt])]
  · rw [getD_set_lt _ _ _ _ (by simp [List.length_set, h16])]

/-- **C2 — witness** for `c2_addreg` at a concrete CPU. -/
theorem c2_addreg_witness :
    (Cpu.new ⟨[]⟩ ⟨[]⟩).registers.length = 16 ∧ ((0 : Register).val ≠ 15) ∧
    (∃ c', execute (Cpu.new ⟨[]⟩ ⟨[]⟩) (.AddReg 0 1) =
        some (some (((Cpu.new ⟨[]⟩ ⟨[]⟩).pc + 2) % 65536), c') ∧
      c'.registers.getD (0 : Register).val 0 =
        ((Cpu.new ⟨[]⟩ ⟨[]⟩).reg 0 + (Cpu.new ⟨[]⟩ ⟨[]⟩).reg 1) % 256 ∧
      c'.registers.getD 15 0 =
        if 256 ≤ (Cpu.new ⟨[]⟩ ⟨[]⟩).reg 0 + (Cpu.new ⟨[]⟩ ⟨[]⟩).reg 1 then 1 else 0) :=
  ⟨by decide, by decide, c2_addreg _ 0 1 (by decide) (by decide)⟩

/-- **C9.**  When the scheduler is `Paused` and the tick's command is
`Step`, exactly one CPU instruction executes during that tick (the
resulting CPU is one `Cpu::step` of the previous one), and provided that
step did not signal a halt, the state after the tick's processing is
`Paused` again. -/
theorem c9_paused_step (s : Chip8EmulatorInner) (c' : Cpu) (hp : s.state = .Paused)
    (hs : s.cpu.step = some (false, c')) :
    tick s (some (.DebugCommand .Step)) = .cont { s with cpu := c' } ∧
    ({ s with cpu := c' } : Chip8EmulatorInner).state = .Paused := by
  obtain ⟨ips, st, cpu, bps⟩ := s
  have hst : st = .Paused := hp
  subst hst
  refine ⟨?_, rfl⟩
  simp [tick, handleDebugCmd, doStep, hs]

/-- **C9 — witness** for `c9_paused_step` on the concrete paused
scheduler state with zeroed memory. -/
theorem c9_paused_step_witness :
    innerPaused.state = .Paused ∧
    innerPaused.cpu.step = some (false, cpuPausedStepped) ∧
    (tick innerPaused (some (.DebugCommand .Step)) =
        .cont { innerPaused with cpu := cpuPausedStepped } ∧
      ({ innerPaused with cpu := cpuPausedStepped } : Chip8EmulatorInner).state = .Paused) :=
  ⟨rfl, by decide, c9_paused_step innerPaused cpuPausedStepped rfl (by decide)⟩

lemma step_eq (c : Cpu) (w : Nat) (hr : c.mem.read_u16 c.pc = some w) :
    c.step =
      match execute c (parse w) with
      | none => none
      | some (some pc, c') => some (false, { c' with pc := pc })
      | some (none, c') => some (true, c') := by
  unfold Cpu.step
  rw [hr]

lemma execute_halt_iff (c : Cpu) (i : Instruction) :
    (∃ c', execute c i = some (none, c')) ↔ i = .Jmp c.pc := by
  constructor
  · rintro ⟨c', hc⟩
    cases i <;> simp only [execute] at hc
    case Jmp addr =>
      split at hc
      · next h => rw [h]
      · simp at hc
    all_goals simp [Option.map_eq_some', Option.bind_eq_some] at hc
  · rintro rfl
    exact ⟨c, by simp [execute]⟩

/-- **C4.**  `step()` reports halted (`true`) iff the big-endian word
fetched at `pc` decodes to `Jmp{addr = pc}`; whenever the fetched word
decodes to anything else, any result `step()` returns reports `false`;
and a fetched `Jmp{addr ≠ pc}` yields `false` with `pc := addr`.
(`none` results model out-of-range panics, which return nothing.) -/
theorem c4_step_halt (c : Cpu) :
    ((∃ c', c.step = some (true, c')) ↔
      (∃ w, c.mem.read_u16 c.pc = some w ∧ parse w = .Jmp c.pc)) ∧
    (∀ w, c.mem.read_u16 c.pc = some w → parse w ≠ .Jmp c.pc →
      ∀ b c', c.step = some (b, c') → b = false) ∧
    (∀ w a, c.mem.read_u16 c.pc = some w → parse w = .Jmp a → a ≠ c.pc →
      c.step = some (false, { c with pc := a })) := by
  refine ⟨⟨?_, ?_⟩, ?_, ?_⟩
  · rintro ⟨c', hs⟩
    cases hr : c.mem.read_u16 c.pc with
    | none => unfold Cpu.step at hs; rw [hr] at hs; exact absurd hs (by simp)
    | some w =>
      rw [step_eq c w hr] at hs
      refine ⟨w, rfl, ?_⟩
      cases he : execute c (parse w) with
      | none => rw [he] at hs; exact absurd hs (by simp)
      | some p =>
        obtain ⟨next, c₂⟩ := p
        cases next with
        | none => exact (execute_halt_iff c (parse w)).1 ⟨c₂, he⟩
        | some pc2 => rw [he] at hs; exact absurd hs (by simp)
  · rintro ⟨w, hr, hp⟩
    have he : execute c (parse w) = some (none, c) := by rw [hp]; simp [execute]
    exact ⟨c, by rw [step_eq c w hr, he]⟩
  · intro w hr hne b c' hs
    cases b with
    | false => rfl
    | true =>
      exfalso
      rw [step_eq c w hr] at hs
      cases he : execute c (parse w) with
      | none => rw [he] at hs; exact absurd hs (by simp)
      | some p =>
        obtain ⟨next, c₂⟩ := p
        cases next with
        | none => exact hne ((execute_halt_iff c (parse w)).1 ⟨c₂, he⟩)
        | some pc2 => rw [he] at hs; exact absurd hs (by simp)
  · intro w a hr hp ha
    rw [step_eq c w hr, hp]
    simp [execute, ha]

/-- **C4 — witness**: on a CPU whose fetched word is `0x1000` at
`pc = 0` (a self-targeting jump), `step()` reports halted. -/
theorem c4_step_halt_witness :
    ∃ c', cpuW4.step = some (true, c') :=
  (c4_step_halt cpuW4).1.2 ⟨0x1000, by decide, by decide⟩

/-- **C3 — counterexample.**  From `cpuC3` (pc 0, `Call 0x10` fetched,
`Ret` at 0x10): the `Call` pushes pc 0 onto the stack (the stack word at
sp 10 reads back 0), but after the matching `Ret` the program counter is
2 — the pushed address plus 2 — not the pushed address 0 the claim
demands. -/
theorem c3_call_ret_counterexample :
    ((stepN 1 cpuC3).bind fun c => c.mem.read_u16 10) = some 0 ∧
    (stepN 2 cpuC3).map Cpu.pc = some 2 ∧ (2 : Nat) ≠ 0 :=
  ⟨rfl, rfl, by decide⟩

/-- **C3 (amended).**  `Call` pushes the current pc (the address of the
`Call` instruction itself) onto the stack and jumps to its operand; a
subsequent `Ret` pops that value and execution resumes at the popped
address **plus 2** — the instruction after the `Call` — via the normal
next-pc advance. -/
theorem c3_call_ret (c : Cpu) (a : Nat) (hlen : c.mem.bytes.length = 4096)
    (hsp2 : 2 ≤ c.sp) (hsp : c.sp + 1 < 4096) (hpc : c.pc < 65536) :
    ∃ c₁, execute c (.Call a) = some (some a, c₁) ∧
      c₁.mem.read_u16 c.sp = some c.pc ∧
      execute c₁ .Ret = some (some ((c.pc + 2) % 65536), { c₁ with pc := c.pc, sp := c.sp }) := by
  have h0 : c.sp < c.mem.bytes.length := by omega
  set m2 : Memory :=
    ⟨(c.mem.bytes.set c.sp (c.pc / 256 % 256)).set (c.sp + 1) (c.pc % 256 % 256)⟩ with hm2
  have h1 : c.sp + 1 < (c.mem.bytes.set c.sp (c.pc / 256 % 256)).length := by
    rw [List.length_set]; omega
  have hw : c.mem.write_u16 c.sp c.pc = some m2 := by
    unfold Memory.write_u16 Memory.write_u8
    rw [if_pos h0]
    show Memory.write_u8 _ _ _ = _
    unfold Memory.write_u8
    rw [if_pos h1]
  have hpush : c.push_stack c.pc = some { c with mem := m2, sp := c.sp - 2 } := by
    unfold Cpu.push_stack
    rw [hw]
    rfl
  have hread : m2.read_u16 c.sp = some c.pc := by
    rw [hm2]
    unfold Memory.read_u16 Memory.read_u8
    rw [show (⟨(c.mem.bytes.set c.sp (c.pc / 256 % 256)).set (c.sp + 1) (c.pc % 256 % 256)⟩ :
        Memory).bytes = (c.mem.bytes.set c.sp (c.pc / 256 % 256)).set (c.sp + 1)
          (c.pc % 256 % 256) from rfl,
      List.get?_eq_getElem?, List.get?_eq_getElem?,
      List.getElem?_set_ne (by omega : c.sp + 1 ≠ c.sp),
      List.getElem?_set_self h0, List.getElem?_set_self h1]
    simp only [Option.some_bind, Option.map_some', Option.some.injEq]
    omega
  refine ⟨{ c with mem := m2, sp := c.sp - 2, pc := a }, ?_, ?_, ?_⟩
  · rw [show execute c (.Call a) =
        (c.push_stack c.pc).map (fun c1 => (some a, { c1 with pc := a })) from rfl, hpush]
    rfl
  · exact hread
  · have hpop : Cpu.pop_stack { c with mem := m2, sp := c.sp - 2, pc := a } =
        some (c.pc, { c with mem := m2, sp := c.sp, pc := a }) := by
      simp only [Cpu.pop_stack]
      rw [show min (c.sp - 2 + 2) 65535 = c.sp by omega, hread]
      rfl
    rw [show execute { c with mem := m2, sp := c.sp - 2, pc := a } .Ret =
        (Cpu.pop_stack { c with mem := m2, sp := c.sp - 2, pc := a }).map
          (fun p : Nat × Cpu => (some ((p.1 + 2) % 65536), { p.2 with pc := p.1 })) from rfl,
      hpop]
    rfl

/-- **C3 — witness** for `c3_call_ret` at the freshly initialised CPU
(`pc = 0x200`, `sp = 0x1FE`, 4096-byte memory) calling 0x300. -/
theorem c3_call_ret_witness :
    (Cpu.new Memory.default Display.default).mem.bytes.length = 4096 ∧
    2 ≤ (Cpu.new Memory.default Display.default).sp ∧
    (Cpu.new Memory.default Display.default).sp + 1 < 4096 ∧
    (Cpu.new Memory.default Display.default).pc < 65536 ∧
    (∃ c₁, execute (Cpu.new Memory.default Display.default) (.Call 0x300) =
        some (some 0x300, c₁) ∧
      c₁.mem.read_u16 (Cpu.new Memory.default Display.default).sp =
        some (Cpu.new Memory.default Display.default).pc ∧
      execute c₁ .Ret =
        some (some (((Cpu.new Memory.default Display.default).pc + 2) % 65536),
          { c₁ with pc := (Cpu.new Memory.default Display.default).pc,
                    sp := (Cpu.new Memory.default Display.default).sp })) :=
  ⟨by rw [show (Cpu.new Memory.default Display.default).mem.bytes = List.replicate 4096 0 from rfl,
      List.length_replicate],
   by decide, by decide, by decide,
   c3_call_ret _ 0x300
     (by rw [show (Cpu.new Memory.default Display.default).mem.bytes = List.replicate 4096 0 from rfl,
        List.length_replicate])
     (by decide) (by decide) (by decide)⟩

lemma memInit8_length : memInit8.bytes.length = 4096 := by
  rw [show memInit8.bytes = (List.replicate 256 0 ++ FONT_SPRITES) ++
    ((List.replicate 176 0 ++ romC8) ++ List.replicate 3580 0) from rfl]
  simp only [List.length_append, List.length_replicate]
  decide

lemma writeRom8 : Memory.default.writeSlice 0x200 romC8 =
    some ⟨(List.replicate 512 0 ++ romC8) ++ List.replicate 3580 0⟩ := by
  unfold Memory.writeSlice Memory.default
  rw [if_pos (by simp only [List.length_replicate]; decide)]
  congr 1

lemma writeFont8 :
    (⟨(List.replicate 512 0 ++ romC8) ++ List.replicate 3580 0⟩ : Memory).writeSlice
      0x100 FONT_SPRITES = some memInit8 := by
  unfold Memory.writeSlice
  rw [if_pos (by simp only [List.length_append, List.length_replicate]; decide)]
  congr 1

lemma init8 : Memory.init romC8 = some memInit8 := by
  unfold Memory.init
  rw [writeRom8, Option.some_bind]
  exact writeFont8

lemma mem8_at (k : Nat) (hk : k < 4) : memInit8.bytes[512 + k]? = romC8[k]? := by
  rw [show memInit8.bytes = (List.replicate 256 0 ++ FONT_SPRITES) ++
    ((List.replicate 176 0 ++ romC8) ++ List.replicate 3580 0) from rfl]
  rw [List.getElem?_append_right (by
    simp only [List.length_append, List.length_replicate,
      show FONT_SPRITES.length = 80 from rfl]
    omega)]
  rw [show 512 + k - (List.replicate 256 (0:Nat) ++ FONT_SPRITES).length = 176 + k from by
    simp only [List.length_append, List.length_replicate,
      show FONT_SPRITES.length = 80 from rfl]
    omega]
  rw [List.getElem?_append_left (by
    simp only [List.length_append, List.length_replicate, show romC8.length = 4 from rfl]
    omega)]
  rw [List.getElem?_append_right (by simp only [List.length_replicate]; omega)]
  rw [show 176 + k - (List.replicate 176 (0:Nat)).length = k from by
    simp only [List.length_replicate]; omega]

lemma fetch8_1 : memInit8.read_u16 512 = some 0xAFFF := by
  unfold Memory.read_u16 Memory.read_u8
  rw [List.get?_eq_getElem?, List.get?_eq_getElem?,
    show (512 : Nat) = 512 + 0 from rfl, mem8_at 0 (by decide),
    show (512 + 0 + 1 : Nat) = 512 + 1 from rfl, mem8_at 1 (by decide)]
  rfl

lemma fetch8_2 : memInit8.read_u16 514 = some 0xF133 := by
  unfold Memory.read_u16 Memory.read_u8
  rw [List.get?_eq_getElem?, List.get?_eq_getElem?,
    show (514 : Nat) = 512 + 2 from rfl, mem8_at 2 (by decide),
    show (512 + 2 + 1 : Nat) = 512 + 3 from rfl, mem8_at 3 (by decide)]
  rfl

/-- Shared helper: a `Bcd` with the index register beyond 0xFFE on a
4096-byte memory always hits the out-of-range branch. -/
lemma bcd_oob (c : Cpu) (r : Register) (hlen : c.mem.bytes.length = 4096)
    (hi : 0xFFE < c.i) : execute c (.Bcd r) = none := by
  rw [show execute c (.Bcd r) =
      ((c.mem.write_u8 c.i (c.reg r / 100)).bind fun m1 =>
        (m1.write_u8 (c.i + 1) (c.reg r / 10 % 10)).bind fun m2 =>
          m2.write_u8 (c.i + 2) (c.reg r % 10)).map
        (fun m3 => (some ((c.pc + 2) % 65536), { c with mem := m3 })) from rfl]
  unfold Memory.write_u8
  by_cases h : c.i < c.mem.bytes.length
  · rw [if_pos h, Option.some_bind,
      if_neg (by rw [show (⟨c.mem.bytes.set c.i (c.reg r / 100 % 256)⟩ : Memory).bytes =
        c.mem.bytes.set c.i (c.reg r / 100 % 256) from rfl, List.length_set]; omega)]
    rfl
  · rw [if_neg h]
    rfl

lemma stepN_succ (n : Nat) (c : Cpu) :
    stepN (n + 1) c =
      match c.step with
      | none => none
      | some (true, c') => some c'
      | some (false, c') => stepN n c' := rfl

lemma step8_1 : (Cpu.new memInit8 Display.default).step = some (false, cpuMid8) := by
  rw [step_eq (Cpu.new memInit8 Display.default) 0xAFFF fetch8_1]
  rfl

lemma step8_2 : cpuMid8.step = none := by
  rw [step_eq cpuMid8 0xF133 fetch8_2]
  rw [show parse 0xF133 = .Bcd (Register.ofNat 1) from rfl]
  rw [bcd_oob cpuMid8 (Register.ofNat 1) memInit8_length (by decide)]

/-- **C8 — counterexample.**  The ROM `[LdI 0xFFF, Bcd V1]` consists
only of validly-encoded instructions, yet two steps from the initial
state the `Bcd` performs a memory write at 0x1000/0x1001 — outside the
4096-byte address space — and execution aborts (`none`, the panicking
branch of the memory accessors). -/
theorem c8_oob_counterexample :
    (Memory.init romC8).map (fun m => stepN 2 (Cpu.new m Display.default)) = some none := by
  have hrun : stepN 2 (Cpu.new memInit8 Display.default) = none := by
    rw [stepN_succ 1, step8_1]
    show stepN 1 cpuMid8 = none
    rw [stepN_succ 0, step8_2]
  rw [init8, Option.map_some', hrun]

/-- **C8 (amended).**  Out-of-range accesses are reachable from validly
encoded instructions, and the memory layer treats them as fatal: on a
4096-byte memory, executing `Bcd` with the index register above 0xFFE
(e.g. after `LdI 0xFFF`) aborts in the out-of-range branch. -/
theorem c8_bcd_out_of_range (c : Cpu) (r : Register) (hlen : c.mem.bytes.length = 4096)
    (hi : 0xFFE < c.i) : execute c (.Bcd r) = none :=
  bcd_oob c r hlen hi

/-- **C8 — witness** for `c8_bcd_out_of_range` at a concrete CPU with
`i = 0xFFF`. -/
theorem c8_bcd_out_of_range_witness :
    ({ Cpu.new Memory.default Display.default with i := 0xFFF } : Cpu).mem.bytes.length = 4096 ∧
    (0xFFE : Nat) < ({ Cpu.new Memory.default Display.default with i := 0xFFF } : Cpu).i ∧
    execute { Cpu.new Memory.default Display.default with i := 0xFFF } (.Bcd 1) = none :=
  ⟨by rw [show ({ Cpu.new Memory.default Display.default with i := 0xFFF } : Cpu).mem.bytes =
      List.replicate 4096 0 from rfl, List.length_replicate],
   by decide,
   c8_bcd_out_of_range _ 1
     (by rw [show ({ Cpu.new Memory.default Display.default with i := 0xFFF } : Cpu).mem.bytes =
        List.replicate 4096 0 from rfl, List.length_replicate])
     (by decide)⟩

lemma parse_def (op : Nat) :
    parse op =
match op / 0x1000 % 0x10, op / 0x100 % 0x10, op / 0x10 % 0x10, op % 0x10 with
      | 0x0, 0x0, 0xE, 0x0 => .Cls
      | 0x0, 0x0, 0xE, 0xE => .Ret
      | 0x1, n0, n1, n2 => .Jmp (mkAddr n0 n1 n2)
      | 0x2, n0, n1, n2 => .Call (mkAddr n0 n1 n2)
      | 0x3, x, n0, n1 => .SkipEqImm (Register.ofNat x) (mkByte n0 n1)
      | 0x4, x, n0, n1 => .SkipNEqImm (Register.ofNat x) (mkByte n0 n1)
      | 0x5, x, y, 0x0 => .SkipEqReg (Register.ofNat x) (Register.ofNat y)
      | 0x6, x, n0, n1 => .LdImm (Register.ofNat x) (mkByte n0 n1)
      | 0x7, x, n0, n1 => .AddImm (Register.ofNat x) (mkByte n0 n1)
      | 0x8, x, y, 0x0 => .LdReg (Register.ofNat x) (Register.ofNat y)
      | 0x8, x, y, 0x1 => .Or (Register.ofNat x) (Register.ofNat y)
      | 0x8, x, y, 0x2 => .And (Register.ofNat x) (Register.ofNat y)
      | 0x8, x, y, 0x3 => .Xor (Register.ofNat x) (Register.ofNat y)
      | 0x8, x, y, 0x4 => .AddReg (Register.ofNat x) (Register.ofNat y)
      | 0x8, x, y, 0x5 => .SubReg (Register.ofNat x) (Register.ofNat y)
      | 0x8, x, y, 0x6 => .Shr (Register.ofNat x) (Register.ofNat y)
      | 0x8, x, y, 0x7 => .SubN (Register.ofNat x) (Register.ofNat y)
      | 0x8, x, y, 0xE => .Shl (Register.ofNat x) (Register.ofNat y)
      | 0x9, x, y, 0x0 => .SkipNEqReg (Register.ofNat x) (Register.ofNat y)
      | 0xA, n0, n1, n2 => .LdI (mkAddr n0 n1 n2)
      | 0xB, n0, n1, n2 => .JmpReg (mkAddr n0 n1 n2)
      | 0xC, x, n0, n1 => .Rnd (Register.ofNat x) (mkByte n0 n1)
      | 0xD, x, y, n => .Drw (Register.ofNat x) (Register.ofNat y) n
      | 0xE, x, 0x9, 0xE => .SkipPressed (Register.ofNat x)
      | 0xE, x, 0xA, 0x1 => .SkipNotPressed (Register.ofNat x)
      | 0xF, x, 0x0, 0x7 => .LdDelayTimer (Register.ofNat x)
      | 0xF, x, 0x0, 0xA => .LdKey (Register.ofNat x)
      | 0xF, x, 0x1, 0x5 => .SetDelayTimer (Register.ofNat x)
      | 0xF, x, 0x1, 0x8 => .SetSoundTimer (Register.ofNat x)
      | 0xF, x, 0x1, 0xE => .AddI (Register.ofNat x)
      | 0xF, x, 0x2, 0x9 => .LdFont (Register.ofNat x)
      | 0xF, x, 0x3, 0x3 => .Bcd (Register.ofNat x)
      | 0xF, x, 0x5, 0x5 => .StoreRegs (Register.ofNat x)
      | 0xF, x, 0x6, 0x5 => .LoadRegs (Register.ofNat x)
      | _, _, _, _ => .Unknown op := rfl

lemma mkByte_eq : ∀ n0 < 16, ∀ n1 < 16, mkByte n0 n1 = n0 * 16 + n1 := by decide

lemma mkAddr_eq : ∀ n0 < 16, ∀ n1 < 16, ∀ n2 < 16,
    mkAddr n0 n1 n2 = n0 * 256 + n1 * 16 + n2 := by decide

/-- **C7.**  For every decodable instruction variant (the 34 documented
opcode forms of `enum Instruction`; `Unknown` has no encoding) and every
choice of operand values within their encoded ranges (register indices
0-15 by type, 8-bit immediates, 12-bit addresses, 4-bit sprite lengths),
`Instruction::parse` applied to the canonical encoding reconstructs
exactly that variant with exactly those operands. -/
theorem c7_parse_encode (i : Instruction) (op : Nat) (hwf : wfInstr i = true)
    (he : encode i = some op) : parse op = i := by
  cases i with
  | Cls =>
    simp only [encode, Option.some.injEq] at he
    subst he
    decide
  | Ret =>
    simp only [encode, Option.some.injEq] at he
    subst he
    decide
  | Jmp a =>
    simp only [encode, Option.some.injEq] at he
    simp only [wfInstr, decide_eq_true_eq] at hwf
    subst he
    rw [parse_def]
    rw [show (0x1000 + a) / 0x1000 % 0x10 = 1 from by omega,
        show (0x1000 + a) / 0x100 % 0x10 = a / 256 from by omega,
        show (0x1000 + a) / 0x10 % 0x10 = a / 16 % 16 from by omega,
        show (0x1000 + a) % 0x10 = a % 16 from by omega]
    show Instruction.Jmp (mkAddr (a / 256) (a / 16 % 16) (a % 16)) = Instruction.Jmp a
    rw [mkAddr_eq _ (by omega) _ (by omega) _ (by omega)]
    congr 1
    omega
  | Call a =>
    simp only [encode, Option.some.injEq] at he
    simp only [wfInstr, decide_eq_true_eq] at hwf
    subst he
    rw [parse_def]
    rw [show (0x2000 + a) / 0x1000 % 0x10 = 2 from by omega,
        show (0x2000 + a) / 0x100 % 0x10 = a / 256 from by omega,
        show (0x2000 + a) / 0x10 % 0x10 = a / 16 % 16 from by omega,
        show (0x2000 + a) % 0x10 = a % 16 from by omega]
    show Instruction.Call (mkAddr (a / 256) (a / 16 % 16) (a % 16)) = Instruction.Call a
    rw [mkAddr_eq _ (by omega) _ (by omega) _ (by omega)]
    congr 1
    omega
  | SkipEqImm r b =>
    simp only [encode, Option.some.injEq] at he
    simp only [wfInstr, decide_eq_true_eq] at hwf
    subst he
    have hr := r.isLt
    rw [parse_def]
    rw [show (0x3000 + r.val * 0x100 + b) / 0x1000 % 0x10 = 3 from by omega,
        show (0x3000 + r.val * 0x100 + b) / 0x100 % 0x10 = r.val from by omega,
        show (0x3000 + r.val * 0x100 + b) / 0x10 % 0x10 = b / 16 from by omega,
        show (0x3000 + r.val * 0x100 + b) % 0x10 = b % 16 from by omega]
    show Instruction.SkipEqImm (Register.ofNat r.val) (mkByte (b / 16) (b % 16)) =
      Instruction.SkipEqImm r b
    rw [mkByte_eq _ (by omega) _ (by omega),
      show Register.ofNat r.val = r from Fin.ext (Nat.mod_eq_of_lt r.isLt)]
    congr 1
    omega
  | SkipNEqImm r b =>
    simp only [encode, Option.some.injEq] at he
    simp only [wfInstr, decide_eq_true_eq] at hwf
    subst he
    have hr := r.isLt
    rw [parse_def]
    rw [show (0x4000 + r.val * 0x100 + b) / 0x1000 % 0x10 = 4 from by omega,
        show (0x4000 + r.val * 0x100 + b) / 0x100 % 0x10 = r.val from by omega,
        show (0x4000 + r.val * 0x100 + b) / 0x10 % 0x10 = b / 16 from by omega,
        show (0x4000 + r.val * 0x100 + b) % 0x10 = b % 16 from by omega]
    show Instruction.SkipNEqImm (Register.ofNat r.val) (mkByte (b / 16) (b % 16)) =
      Instruction.SkipNEqImm r b
    rw [mkByte_eq _ (by omega) _ (by omega),
      show Register.ofNat r.val = r from Fin.ext (Nat.mod_eq_of_lt r.isLt)]
    congr 1
    omega
  | SkipEqReg x y =>
    simp only [encode, Option.some.injEq] at he
    subst he
    have hx := x.isLt
    have hy := y.isLt
    rw [parse_def]
    rw [show (0x5000 + x.val * 0x100 + y.val * 0x10) / 0x1000 % 0x10 = 5 from by omega,
        show (0x5000 + x.val * 0x100 + y.val * 0x10) / 0x100 % 0x10 = x.val from by omega,
        show (0x5000 + x.val * 0x100 + y.val * 0x10) / 0x10 % 0x10 = y.val from by omega,
        show (0x5000 + x.val * 0x100 + y.val * 0x10) % 0x10 = 0 from by omega]
    show Instruction.SkipEqReg (Register.ofNat x.val) (Register.ofNat y.val) =
      Instruction.SkipEqReg x y
    rw [show Register.ofNat x.val = x from Fin.ext (Nat.mod_eq_of_lt x.isLt),
        show Register.ofNat y.val = y from Fin.ext (Nat.mod_eq_of_lt y.isLt)]
  | LdImm r b =>
    simp only [encode, Option.some.injEq] at he
    simp only [wfInstr, decide_eq_true_eq] at hwf
    subst he
    have hr := r.isLt
    rw [parse_def]
    rw [show (0x6000 + r.val * 0x100 + b) / 0x1000 % 0x10 = 6 from by omega,
        show (0x6000 + r.val * 0x100 + b) / 0x100 % 0x10 = r.val from by omega,
        show (0x6000 + r.val * 0x100 + b) / 0x10 % 0x10 = b / 16 from by omega,
        show (0x6000 + r.val * 0x100 + b) % 0x10 = b % 16 from by omega]
    show Instruction.LdImm (Register.ofNat r.val) (mkByte (b / 16) (b % 16)) =
      Instruction.LdImm r b
    rw [mkByte_eq _ (by omega) _ (by omega),
      show Register.ofNat r.val = r from Fin.ext (Nat.mod_eq_of_lt r.isLt)]
    congr 1
    omega
  | AddImm r b =>
    simp only [encode, Option.some.injEq] at he
    simp only [wfInstr, decide_eq_true_eq] at hwf
    subst he
    have hr := r.isLt
    rw [parse_def]
    rw [show (0x7000 + r.val * 0x100 + b) / 0x1000 % 0x10 = 7 from by omega,
        show (0x7000 + r.val * 0x100 + b) / 0x100 % 0x10 = r.val from by omega,
        show (0x7000 + r.val * 0x100 + b) / 0x10 % 0x10 = b / 16 from by omega,
        show (0x7000 + r.val * 0x100 + b) % 0x10 = b % 16 from by omega]
    show Instruction.AddImm (Register.ofNat r.val) (mkByte (b / 16) (b % 16)) =
      Instruction.AddImm r b
    rw [mkByte_eq _ (by omega) _ (by omega),
      show Register.ofNat r.val = r from Fin.ext (Nat.mod_eq_of_lt r.isLt)]
    congr 1
    omega
  | LdReg x y =>
    simp only [encode, Option.some.injEq] at he
    subst he
    have hx := x.isLt
    have hy := y.isLt
    rw [parse_def]
    rw [show (0x8000 + x.val * 0x100 + y.val * 0x10) / 0x1000 % 0x10 = 8 from by omega,
        show (0x8000 + x.val * 0x100 + y.val * 0x10) / 0x100 % 0x10 = x.val from by omega,
        show (0x8000 + x.val * 0x100 + y.val * 0x10) / 0x10 % 0x10 = y.val from by omega,
        show (0x8000 + x.val * 0x100 + y.val * 0x10) % 0x10 = 0 from by omega]
    show Instruction.LdReg (Register.ofNat x.val) (Register.ofNat y.val) =
      Instruction.LdReg x y
    rw [show Register.ofNat x.val = x from Fin.ext (Nat.mod_eq_of_lt x.isLt),
        show Register.ofNat y.val = y from Fin.ext (Nat.mod_eq_of_lt y.isLt)]
  | Or x y =>
    simp only [encode, Option.some.injEq] at he
    subst he
    have hx := x.isLt
    have hy := y.isLt
    rw [parse_def]
    rw [show (0x8001 + x.val * 0x100 + y.val * 0x10) / 0x1000 % 0x10 = 8 from by omega,
        show (0x8001 + x.val * 0x100 + y.val * 0x10) / 0x100 % 0x10 = x.val from by omega,
        show (0x8001 + x.val * 0x100 + y.val * 0x10) / 0x10 % 0x10 = y.val from by omega,
        show (0x8001 + x.val * 0x100 + y.val * 0x10) % 0x10 = 1 from by omega]
    show Instruction.Or (Register.ofNat x.val) (Register.ofNat y.val) =
      Instruction.Or x y
    rw [show Register.ofNat x.val = x from Fin.ext (Nat.mod_eq_of_lt x.isLt),
        show Register.ofNat y.val = y from Fin.ext (Nat.mod_eq_of_lt y.isLt)]
  | And x y =>
    simp only [encode, Option.some.injEq] at he
    subst he
    have hx := x.isLt
    have hy := y.isLt
    rw [parse_def]
    rw [show (0x8002 + x.val * 0x100 + y.val * 0x10) / 0x1000 % 0x10 = 8 from by omega,
        show (0x8002 + x.val * 0x100 + y.val * 0x10) / 0x100 % 0x10 = x.val from by omega,
        show (0x8002 + x.val * 0x100 + y.val * 0x10) / 0x10 % 0x10 = y.val from by omega,
        show (0x8002 + x.val * 0x100 + y.val * 0x10) % 0x10 = 2 from by omega]
    show Instruction.And (Register.ofNat x.val) (Register.ofNat y.val) =
      Instruction.And x y
    rw [show Register.ofNat x.val = x from Fin.ext (Nat.mod_eq_of_lt x.isLt),
        show Register.ofNat y.val = y from Fin.ext (Nat.mod_eq_of_lt y.isLt)]
  | Xor x y =>
    simp only [encode, Option.some.injEq] at he
    subst he
    have hx := x.isLt
    have hy := y.isLt
    rw [parse_def]
    rw [show (0x8003 + x.val * 0x100 + y.val * 0x10) / 0x1000 % 0x10 = 8 from by omega,
        show (0x8003 + x.val * 0x100 + y.val * 0x10) / 0x100 % 0x10 = x.val from by omega,
        show (0x8003 + x.val * 0x100 + y.val * 0x10) / 0x10 % 0x10 = y.val from by omega,
        show (0x8003 + x.val * 0x100 + y.val * 0x10) % 0x10 = 3 from by omega]
    show Instruction.Xor (Register.ofNat x.val) (Register.ofNat y.val) =
      Instruction.Xor x y
    rw [show Register.ofNat x.val = x from Fin.ext (Nat.mod_eq_of_lt x.isLt),
        show Register.ofNat y.val = y from Fin.ext (Nat.mod_eq_of_lt y.isLt)]
  | AddReg x y =>
    simp only [encode, Option.some.injEq] at he
    subst he
    have hx := x.isLt
    have hy := y.isLt
    rw [parse_def]
    rw [show (0x8004 + x.val * 0x100 + y.val * 0x10) / 0x1000 % 0x10 = 8 from by omega,
        show (0x8004 + x.val * 0x100 + y.val * 0x10) / 0x100 % 0x10 = x.val from by omega,
        show (0x8004 + x.val * 0x100 + y.val * 0x10) / 0x10 % 0x10 = y.val from by omega,
        show (0x8004 + x.val * 0x100 + y.val * 0x10) % 0x10 = 4 from by omega]
    show Instruction.AddReg (Register.ofNat x.val) (Register.ofNat y.val) =
      Instruction.AddReg x y
    rw [show Register.ofNat x.val = x from Fin.ext (Nat.mod_eq_of_lt x.isLt),
        show Register.ofNat y.val = y from Fin.ext (Nat.mod_eq_of_lt y.isLt)]
  | SubReg x y =>
    simp only [encode, Option.some.injEq] at he
    subst he
    have hx := x.isLt
    have hy := y.isLt
    rw [parse_def]
    rw [show (0x8005 + x.val * 0x100 + y.val * 0x10) / 0x1000 % 0x10 = 8 from by omega,
        show (0x8005 + x.val * 0x100 + y.val * 0x10) / 0x100 % 0x10 = x.val from by omega,
        show (0x8005 + x.val * 0x100 + y.val * 0x10) / 0x10 % 0x10 = y.val from by omega,
        show (0x8005 + x.val * 0x100 + y.val * 0x10) % 0x10 = 5 from by omega]
    show Instruction.SubReg (Register.ofNat x.val) (Register.ofNat y.val) =
      Instruction.SubReg x y
    rw [show Register.ofNat x.val = x from Fin.ext (Nat.mod_eq_of_lt x.isLt),
        show Register.ofNat y.val = y from Fin.ext (Nat.mod_eq_of_lt y.isLt)]
  | Shr x y =>
    simp only [encode, Option.some.injEq] at he
    subst he
    have hx := x.isLt
    have hy := y.isLt
    rw [parse_def]
    rw [show (0x8006 + x.val * 0x100 + y.val * 0x10) / 0x1000 % 0x10 = 8 from by omega,
        show (0x8006 + x.val * 0x100 + y.val * 0x10) / 0x100 % 0x10 = x.val from by omega,
        show (0x8006 + x.val * 0x100 + y.val * 0x10) / 0x10 % 0x10 = y.val from by omega,
        show (0x8006 + x.val * 0x100 + y.val * 0x10) % 0x10 = 6 from by omega]
    show Instruction.Shr (Register.ofNat x.val) (Register.ofNat y.val) =
      Instruction.Shr x y
    rw [show Register.ofNat x.val = x from Fin.ext (Nat.mod_eq_of_lt x.isLt),
        show Register.ofNat y.val = y from Fin.ext (Nat.mod_eq_of_lt y.isLt)]
  | SubN x y =>
    simp only [encode, Option.some.injEq] at he
    subst he
    have hx := x.isLt
    have hy := y.isLt
    rw [parse_def]
    rw [show (0x8007 + x.val * 0x100 + y.val * 0x10) / 0x1000 % 0x10 = 8 from by omega,
        show (0x8007 + x.val * 0x100 + y.val * 0x10) / 0x100 % 0x10 = x.val from by omega,
        show (0x8007 + x.val * 0x100 + y.val * 0x10) / 0x10 % 0x10 = y.val from by omega,
        show (0x8007 + x.val * 0x100 + y.val * 0x10) % 0x10 = 7 from by omega]
    show Instruction.SubN (Register.ofNat x.val) (Register.ofNat y.val) =
      Instruction.SubN x y
    rw [show Register.ofNat x.val = x from Fin.ext (Nat.mod_eq_of_lt x.isLt),
        show Register.ofNat y.val = y from Fin.ext (Nat.mod_eq_of_lt y.isLt)]
  | Shl x y =>
    simp only [encode, Option.some.injEq] at he
    subst he
    have hx := x.isLt
    have hy := y.isLt
    rw [parse_def]
    rw [show (0x800E + x.val * 0x100 + y.val * 0x10) / 0x1000 % 0x10 = 8 from by omega,
        show (0x800E + x.val * 0x100 + y.val * 0x10) / 0x100 % 0x10 = x.val from by omega,
        show (0x800E + x.val * 0x100 + y.val * 0x10) / 0x10 % 0x10 = y.val from by omega,
        show (0x800E + x.val * 0x100 + y.val * 0x10) % 0x10 = 0xE from by omega]
    show Instruction.Shl (Register.ofNat x.val) (Register.ofNat y.val) =
      Instruction.Shl x y
    rw [show Register.ofNat x.val = x from Fin.ext (Nat.mod_eq_of_lt x.isLt),
        show Register.ofNat y.val = y from Fin.ext (Nat.mod_eq_of_lt y.isLt)]
  | SkipNEqReg x y =>
    simp only [encode, Option.some.injEq] at he
    subst he
    have hx := x.isLt
    have hy := y.isLt
    rw [parse_def]
    rw [show (0x9000 + x.val * 0x100 + y.val * 0x10) / 0x1000 % 0x10 = 9 from by omega,
        show (0x9000 + x.val * 0x100 + y.val * 0x10) / 0x100 % 0x10 = x.val from by omega,
        show (0x9000 + x.val * 0x100 + y.val * 0x10) / 0x10 % 0x10 = y.val from by omega,
        show (0x9000 + x.val * 0x100 + y.val * 0x10) % 0x10 = 0 from by omega]
    show Instruction.SkipNEqReg (Register.ofNat x.val) (Register.ofNat y.val) =
      Instruction.SkipNEqReg x y
    rw [show Register.ofNat x.val = x from Fin.ext (Nat.mod_eq_of_lt x.isLt),
        show Register.ofNat y.val = y from Fin.ext (Nat.mod_eq_of_lt y.isLt)]
  | LdI a =>
    simp only [encode, Option.some.injEq] at he
    simp only [wfInstr, decide_eq_true_eq] at hwf
    subst he
    rw [parse_def]
    rw [show (0xA000 + a) / 0x1000 % 0x10 = 0xA from by omega,
        show (0xA000 + a) / 0x100 % 0x10 = a / 256 from by omega,
        show (0xA000 + a) / 0x10 % 0x10 = a / 16 % 16 from by omega,
        show (0xA000 + a) % 0x10 = a % 16 from by omega]
    show Instruction.LdI (mkAddr (a / 256) (a / 16 % 16) (a % 16)) = Instruction.LdI a
    rw [mkAddr_eq _ (by omega) _ (by omega) _ (by omega)]
    congr 1
    omega
  | JmpReg a =>
    simp only [encode, Option.some.injEq] at he
    simp only [wfInstr, decide_eq_true_eq] at hwf
    subst he
    rw [parse_def]
    rw [show (0xB000 + a) / 0x1000 % 0x10 = 0xB from by omega,
        show (0xB000 + a) / 0x100 % 0x10 = a / 256 from by omega,
        show (0xB000 + a) / 0x10 % 0x10 = a / 16 % 16 from by omega,
        show (0xB000 + a) % 0x10 = a % 16 from by omega]
    show Instruction.JmpReg (mkAddr (a / 256) (a / 16 % 16) (a % 16)) = Instruction.JmpReg a
    rw [mkAddr_eq _ (by omega) _ (by omega) _ (by omega)]
    congr 1
    omega
  | Rnd r b =>
    simp only [encode, Option.some.injEq] at he
    simp only [wfInstr, decide_eq_true_eq] at hwf
    subst he
    have hr := r.isLt
    rw [parse_def]
    rw [show (0xC000 + r.val * 0x100 + b) / 0x1000 % 0x10 = 0xC from by omega,
        show (0xC000 + r.val * 0x100 + b) / 0x100 % 0x10 = r.val from by omega,
        show (0xC000 + r.val * 0x100 + b) / 0x10 % 0x10 = b / 16 from by omega,
        show (0xC000 + r.val * 0x100 + b) % 0x10 = b % 16 from by omega]
    show Instruction.Rnd (Register.ofNat r.val) (mkByte (b / 16) (b % 16)) =
      Instruction.Rnd r b
    rw [mkByte_eq _ (by omega) _ (by omega),
      show Register.ofNat r.val = r from Fin.ext (Nat.mod_eq_of_lt r.isLt)]
    congr 1
    omega
  | Drw x y n =>
    simp only [encode, Option.some.injEq] at he
    simp only [wfInstr, decide_eq_true_eq] at hwf
    subst he
    have hx := x.isLt
    have hy := y.isLt
    rw [parse_def]
    rw [show (0xD000 + x.val * 0x100 + y.val * 0x10 + n) / 0x1000 % 0x10 = 0xD from by omega,
        show (0xD000 + x.val * 0x100 + y.val * 0x10 + n) / 0x100 % 0x10 = x.val from by omega,
        show (0xD000 + x.val * 0x100 + y.val * 0x10 + n) / 0x10 % 0x10 = y.val from by omega,
        show (0xD000 + x.val * 0x100 + y.val * 0x10 + n) % 0x10 = n from by omega]
    show Instruction.Drw (Register.ofNat x.val) (Register.ofNat y.val) n = Instruction.Drw x y n
    rw [show Register.ofNat x.val = x from Fin.ext (Nat.mod_eq_of_lt x.isLt),
        show Register.ofNat y.val = y from Fin.ext (Nat.mod_eq_of_lt y.isLt)]
  | SkipPressed r =>
    simp only [encode, Option.some.injEq] at he
    subst he
    have hr := r.isLt
    rw [parse_def]
    rw [show (0xE09E + r.val * 0x100) / 0x1000 % 0x10 = 0xE from by omega,
        show (0xE09E + r.val * 0x100) / 0x100 % 0x10 = r.val from by omega,
        show (0xE09E + r.val * 0x100) / 0x10 % 0x10 = 9 from by omega,
        show (0xE09E + r.val * 0x100) % 0x10 = 0xE from by omega]
    show Instruction.SkipPressed (Register.ofNat r.val) = Instruction.SkipPressed r
    rw [show Register.ofNat r.val = r from Fin.ext (Nat.mod_eq_of_lt r.isLt)]
  | SkipNotPressed r =>
    simp only [encode, Option.some.injEq] at he
    subst he
    have hr := r.isLt
    rw [parse_def]
    rw [show (0xE0A1 + r.val * 0x100) / 0x1000 % 0x10 = 0xE from by omega,
        show (0xE0A1 + r.val * 0x100) / 0x100 % 0x10 = r.val from by omega,
        show (0xE0A1 + r.val * 0x100) / 0x10 % 0x10 = 0xA from by omega,
        show (0xE0A1 + r.val * 0x100) % 0x10 = 1 from by omega]
    show Instruction.SkipNotPressed (Register.ofNat r.val) = Instruction.SkipNotPressed r
    rw [show Register.ofNat r.val = r from Fin.ext (Nat.mod_eq_of_lt r.isLt)]
  | LdDelayTimer r =>
    simp only [encode, Option.some.injEq] at he
    subst he
    have hr := r.isLt
    rw [parse_def]
    rw [show (0xF007 + r.val * 0x100) / 0x1000 % 0x10 = 0xF from by omega,
        show (0xF007 + r.val * 0x100) / 0x100 % 0x10 = r.val from by omega,
        show (0xF007 + r.val * 0x100) / 0x10 % 0x10 = 0 from by omega,
        show (0xF007 + r.val * 0x100) % 0x10 = 7 from by omega]
    show Instruction.LdDelayTimer (Register.ofNat r.val) = Instruction.LdDelayTimer r
    rw [show Register.ofNat r.val = r from Fin.ext (Nat.mod_eq_of_lt r.isLt)]
  | LdKey r =>
    simp only [encode, Option.some.injEq] at he
    subst he
    have hr := r.isLt
    rw [parse_def]
    rw [show (0xF00A + r.val * 0x100) / 0x1000 % 0x10 = 0xF from by omega,
        show (0xF00A + r.val * 0x100) / 0x100 % 0x10 = r.val from by omega,
        show (0xF00A + r.val * 0x100) / 0x10 % 0x10 = 0 from by omega,
        show (0xF00A + r.val * 0x100) % 0x10 = 0xA from by omega]
    show Instruction.LdKey (Register.ofNat r.val) = Instruction.LdKey r
    rw [show Register.ofNat r.val = r from Fin.ext (Nat.mod_eq_of_lt r.isLt)]
  | SetDelayTimer r =>
    simp only [encode, Option.some.injEq] at he
    subst he
    have hr := r.isLt
    rw [parse_def]
    rw [show (0xF015 + r.val * 0x100) / 0x1000 % 0x10 = 0xF from by omega,
        show (0xF015 + r.val * 0x100) / 0x100 % 0x10 = r.val from by omega,
        show (0xF015 + r.val * 0x100) / 0x10 % 0x10 = 1 from by omega,
        show (0xF015 + r.val * 0x100) % 0x10 = 5 from by omega]
    show Instruction.SetDelayTimer (Register.ofNat r.val) = Instruction.SetDelayTimer r
    rw [show Register.ofNat r.val = r from Fin.ext (Nat.mod_eq_of_lt r.isLt)]
  | SetSoundTimer r =>
    simp only [encode, Option.some.injEq] at he
    subst he
    have hr := r.isLt
    rw [parse_def]
    rw [show (0xF018 + r.val * 0x100) / 0x1000 % 0x10 = 0xF from by omega,
        show (0xF018 + r.val * 0x100) / 0x100 % 0x10 = r.val from by omega,
        show (0xF018 + r.val * 0x100) / 0x10 % 0x10 = 1 from by omega,
        show (0xF018 + r.val * 0x100) % 0x10 = 8 from by omega]
    show Instruction.SetSoundTimer (Register.ofNat r.val) = Instruction.SetSoundTimer r
    rw [show Register.ofNat r.val = r from Fin.ext (Nat.mod_eq_of_lt r.isLt)]
  | AddI r =>
    simp only [encode, Option.some.injEq] at he
    subst he
    have hr := r.isLt
    rw [parse_def]
    rw [show (0xF01E + r.val * 0x100) / 0x1000 % 0x10 = 0xF from by omega,
        show (0xF01E + r.val * 0x100) / 0x100 % 0x10 = r.val from by omega,
        show (0xF01E + r.val * 0x100) / 0x10 % 0x10 = 1 from by omega,
        show (0xF01E + r.val * 0x100) % 0x10 = 0xE from by omega]
    show Instruction.AddI (Register.ofNat r.val) = Instruction.AddI r
    rw [show Register.ofNat r.val = r from Fin.ext (Nat.mod_eq_of_lt r.isLt)]
  | LdFont r =>
    simp only [encode, Option.some.injEq] at he
    subst he
    have hr := r.isLt
    rw [parse_def]
    rw [show (0xF029 + r.val * 0x100) / 0x1000 % 0x10 = 0xF from by omega,
        show (0xF029 + r.val * 0x100) / 0x100 % 0x10 = r.val from by omega,
        show (0xF029 + r.val * 0x100) / 0x10 % 0x10 = 2 from by omega,
        show (0xF029 + r.val * 0x100) % 0x10 = 9 from by omega]
    show Instruction.LdFont (Register.ofNat r.val) = Instruction.LdFont r
    rw [show Register.ofNat r.val = r from Fin.ext (Nat.mod_eq_of_lt r.isLt)]
  | Bcd r =>
    simp only [encode, Option.some.injEq] at he
    subst he
    have hr := r.isLt
    rw [parse_def]
    rw [show (0xF033 + r.val * 0x100) / 0x1000 % 0x10 = 0xF from by omega,
        show (0xF033 + r.val * 0x100) / 0x100 % 0x10 = r.val from by omega,
        show (0xF033 + r.val * 0x100) / 0x10 % 0x10 = 3 from by omega,
        show (0xF033 + r.val * 0x100) % 0x10 = 3 from by omega]
    show Instruction.Bcd (Register.ofNat r.val) = Instruction.Bcd r
    rw [show Register.ofNat r.val = r from Fin.ext (Nat.mod_eq_of_lt r.isLt)]
  | StoreRegs r =>
    simp only [encode, Option.some.injEq] at he
    subst he
    have hr := r.isLt
    rw [parse_def]
    rw [show (0xF055 + r.val * 0x100) / 0x1000 % 0x10 = 0xF from by omega,
        show (0xF055 + r.val * 0x100) / 0x100 % 0x10 = r.val from by omega,
        show (0xF055 + r.val * 0x100) / 0x10 % 0x10 = 5 from by omega,
        show (0xF055 + r.val * 0x100) % 0x10 = 5 from by omega]
    show Instruction.StoreRegs (Register.ofNat r.val) = Instruction.StoreRegs r
    rw [show Register.ofNat r.val = r from Fin.ext (Nat.mod_eq_of_lt r.isLt)]
  | LoadRegs r =>
    simp only [encode, Option.some.injEq] at he
    subst he
    have hr := r.isLt
    rw [parse_def]
    rw [show (0xF065 + r.val * 0x100) / 0x1000 % 0x10 = 0xF from by omega,
        show (0xF065 + r.val * 0x100) / 0x100 % 0x10 = r.val from by omega,
        show (0xF065 + r.val * 0x100) / 0x10 % 0x10 = 6 from by omega,
        show (0xF065 + r.val * 0x100) % 0x10 = 5 from by omega]
    show Instruction.LoadRegs (Register.ofNat r.val) = Instruction.LoadRegs r
    rw [show Register.ofNat r.val = r from Fin.ext (Nat.mod_eq_of_lt r.isLt)]
  | Unknown o =>
    simp only [wfInstr] at hwf
    exact Bool.noConfusion hwf

/-- **C7 — witness** for `c7_parse_encode` at `SkipEqImm V1, 0x23`
(opcode `0x3123`). -/
theorem c7_parse_encode_witness :
    wfInstr (Instruction.SkipEqImm 1 0x23) = true ∧
    encode (Instruction.SkipEqImm 1 0x23) = some 0x3123 ∧
    parse 0x3123 = Instruction.SkipEqImm 1 0x23 :=
  ⟨by decide, by decide, c7_parse_encode _ 0x3123 (by decide) (by decide)⟩

lemma any_congr_of_mem {α} {l : List α} {f g : α → Bool} (h : ∀ a ∈ l, f a = g a) :
    l.any f = l.any g := by
  induction l with
  | nil => rfl
  | cons a t ih =>
    rw [List.any_cons, List.any_cons, h a (List.mem_cons_self a t),
      ih fun b hb => h b (List.mem_cons_of_mem a hb)]

lemma getD_eq_get {α} (l : List α) (i : Nat) (d : α) (h : i < l.length) :
    l.getD i d = l.get ⟨i, h⟩ := by
  rw [List.getD_eq_getElem?_getD, List.getElem?_eq_getElem h, List.get_eq_getElem]
  rfl

lemma set_getD_self {α} (l : List α) (i : Nat) (d : α) (h : i < l.length) :
    l.set i (l.getD i d) = l := by
  apply List.ext_getElem?
  intro j
  rw [List.getElem?_set]
  split
  · next e =>
    subst e
    rw [List.getElem?_eq_getElem h, getD_eq_get l i d h, List.get_eq_getElem]
  · rfl

lemma setPx_eq (d : List Bool) (i : Nat) (b : Bool) :
    setPx d i b = if i < d.length then d.set i (xor (d.getD i false) b) else d := by
  unfold setPx setPixel
  split
  · next h =>
    rw [getD_eq_get d i false h]
  · next h =>
    rfl

lemma setPx_getD_ne (d : List Bool) (i j : Nat) (b x : Bool) (h : i ≠ j) :
    (setPx d i b).getD j x = d.getD j x := by
  rw [setPx_eq]
  split
  · rw [getD_set_ne _ _ _ _ _ h]
  · rfl

lemma setPx_comm (d : List Bool) (i j : Nat) (b b' : Bool) (hij : i ≠ j) :
    setPx (setPx d i b) j b' = setPx (setPx d j b') i b := by
  by_cases hi : i < d.length <;> by_cases hj : j < d.length
  · rw [setPx_eq d i b, if_pos hi, setPx_eq d j b', if_pos hj,
      setPx_eq (d.set i (xor (d.getD i false) b)) j b',
      setPx_eq (d.set j (xor (d.getD j false) b')) i b,
      List.length_set, List.length_set, if_pos hj, if_pos hi,
      getD_set_ne _ _ _ _ _ hij, getD_set_ne _ _ _ _ _ (Ne.symm hij)]
    exact List.set_comm _ _ d hij
  · rw [setPx_eq d j b', if_neg hj]
    rw [setPx_eq d i b, if_pos hi]
    rw [setPx_eq (d.set i (xor (d.getD i false) b)) j b', List.length_set, if_neg hj]
  · rw [setPx_eq d i b, if_neg hi]
    rw [setPx_eq d j b', if_pos hj]
    rw [setPx_eq (d.set j (xor (d.getD j false) b')) i b, List.length_set, if_neg hi]
  · rw [setPx_eq d i b, if_neg hi]
    rw [setPx_eq d j b', if_neg hj]
    rw [setPx_eq d i b, if_neg hi]

lemma setPixel_snd (d : List Bool) (i : Nat) (b : Bool) :
    (setPixel d i b).2 = (d.getD i false && b) := by
  unfold setPixel
  split
  · next h =>
    show (d.get ⟨i, h⟩ && !(xor (d.get ⟨i, h⟩) b)) = (d.getD i false && b)
    rw [getD_eq_get d i false h]
    cases d.get ⟨i, h⟩ <;> cases b <;> rfl
  · next h =>
    show false = (d.getD i false && b)
    rw [List.getD_eq_getElem?_getD, List.getElem?_eq_none (by omega : d.length ≤ i)]
    rfl

lemma setPx_setPx_self (d : List Bool) (i : Nat) (b : Bool) :
    setPx (setPx d i b) i b = d := by
  by_cases h : i < d.length
  · rw [setPx_eq d i b, if_pos h,
      setPx_eq (d.set i (xor (d.getD i false) b)) i b,
      if_pos (by rw [List.length_set]; exact h),
      getD_set_lt _ _ _ _ h,
      List.set_set, Bool.xor_assoc, Bool.xor_self, Bool.xor_false,
      set_getD_self d i false h]
  · rw [setPx_eq d i b, if_neg h, setPx_eq d i b, if_neg h]

lemma applyOps_eq (ops : List (Nat × Bool)) : ∀ (d : List Bool) (cl : Bool),
    applyOps (d, cl) ops = (bufAfter d ops, cl || collAfter d ops) := by
  induction ops with
  | nil =>
    intro d cl
    show (d, cl) = (d, cl || false)
    rw [Bool.or_false]
  | cons op t ih =>
    intro d cl
    show applyOps (setPx d op.1 op.2, cl || (setPixel d op.1 op.2).2) t = _
    rw [ih]
    show _ = (bufAfter (setPx d op.1 op.2) t,
      cl || ((setPixel d op.1 op.2).2 || collAfter (setPx d op.1 op.2) t))
    rw [Bool.or_assoc]

lemma foldl_rows (x y : Nat) (l : List (Nat × Nat)) : ∀ (acc : List Bool × Bool),
    l.foldl (fun acc p =>
      let py := (y + p.1) % 32
      (List.range 8).foldl (fun acc2 col =>
        let px := (x + col) % 64
        let bit := (p.2 &&& (1 <<< (7 - col))) != 0
        let r := setPixel acc2.1 (py * 64 + px) bit
        (r.1, acc2.2 || r.2)) acc) acc
    = applyOps acc (l.flatMap fun p => (List.range 8).map fun col =>
        (((y + p.1) % 32) * 64 + (x + col) % 64, (p.2 &&& (1 <<< (7 - col))) != 0)) := by
  induction l with
  | nil => intro acc; rfl
  | cons p t ih =>
    intro acc
    rw [List.foldl_cons, List.flatMap_cons, ih]
    show applyOps ((List.range 8).foldl _ acc) _ = _
    rw [show applyOps acc (((List.range 8).map fun col =>
        (((y + p.1) % 32) * 64 + (x + col) % 64, (p.2 &&& (1 <<< (7 - col))) != 0)) ++
          (t.flatMap fun q => (List.range 8).map fun col =>
            (((y + q.1) % 32) * 64 + (x + col) % 64, (q.2 &&& (1 <<< (7 - col))) != 0))) =
      applyOps (applyOps acc ((List.range 8).map fun col =>
        (((y + p.1) % 32) * 64 + (x + col) % 64, (p.2 &&& (1 <<< (7 - col))) != 0)))
        (t.flatMap fun q => (List.range 8).map fun col =>
          (((y + q.1) % 32) * 64 + (x + col) % 64, (q.2 &&& (1 <<< (7 - col))) != 0))
      from List.foldl_append _ _ _ _]
    congr 1

lemma drawSprite_eq_applyOps (buf : List Bool) (x y : Nat) (sprite : List Nat) :
    drawSprite buf x y sprite = applyOps (buf, false) (pixelOps x y sprite) :=
  foldl_rows x y sprite.enum (buf, false)

lemma bufAfter_setPx_comm (ops : List (Nat × Bool)) : ∀ (d : List Bool) (i : Nat) (b : Bool),
    i ∉ ops.map Prod.fst →
    bufAfter (setPx d i b) ops = setPx (bufAfter d ops) i b := by
  induction ops with
  | nil => intro d i b _; rfl
  | cons op t ih =>
    intro d i b hmem
    rw [List.map_cons, List.mem_cons, not_or] at hmem
    show bufAfter (setPx (setPx d i b) op.1 op.2) t = _
    rw [setPx_comm d i op.1 b op.2 hmem.1, ih _ _ _ hmem.2]
    rfl

lemma bufAfter_twice (ops : List (Nat × Bool)) : ∀ (d : List Bool),
    (ops.map Prod.fst).Nodup →
    bufAfter (bufAfter d ops) ops = d := by
  induction ops with
  | nil => intro d _; rfl
  | cons op t ih =>
    intro d hnd
    rw [List.map_cons, List.nodup_cons] at hnd
    show bufAfter (setPx (bufAfter (setPx d op.1 op.2) t) op.1 op.2) t = d
    rw [← bufAfter_setPx_comm t (setPx d op.1 op.2) op.1 op.2 hnd.1,
      setPx_setPx_self d op.1 op.2]
    exact ih d hnd.2

lemma collAfter_eq_any (ops : List (Nat × Bool)) : ∀ (d : List Bool),
    (ops.map Prod.fst).Nodup →
    collAfter d ops = ops.any fun op => d.getD op.1 false && op.2 := by
  induction ops with
  | nil => intro d _; rfl
  | cons op t ih =>
    intro d hnd
    rw [List.map_cons, List.nodup_cons] at hnd
    show ((setPixel d op.1 op.2).2 || collAfter (setPx d op.1 op.2) t) = _
    rw [setPixel_snd, ih _ hnd.2, List.any_cons]
    congr 1
    apply any_congr_of_mem
    intro q hq
    have hne : op.1 ≠ q.1 := fun e => hnd.1 (e ▸ List.mem_map_of_mem Prod.fst hq)
    rw [setPx_getD_ne d op.1 q.1 op.2 false hne]

lemma mem_enum_fst_lt {α} {l : List α} {p : Nat × α} (h : p ∈ l.enum) : p.1 < l.length := by
  have h2 := List.mem_enum_iff_getElem?.1 h
  obtain ⟨hlt, _⟩ := List.getElem?_eq_some.1 h2
  exact hlt

lemma pixelOps_map_fst (x y : Nat) (sprite : List Nat) :
    (pixelOps x y sprite).map Prod.fst =
      sprite.enum.flatMap fun p => (List.range 8).map fun col =>
        ((y + p.1) % 32) * 64 + (x + col) % 64 := by
  unfold pixelOps
  rw [List.map_flatMap]
  congr 1

lemma pixelOps_nodup (x y : Nat) (sprite : List Nat) (hs : sprite.length ≤ 32) :
    ((pixelOps x y sprite).map Prod.fst).Nodup := by
  rw [pixelOps_map_fst, List.nodup_flatMap]
  constructor
  · intro p _
    apply List.Nodup.map_on ?_ (List.nodup_range 8)
    intro c₁ hc₁ c₂ hc₂ he
    rw [List.mem_range] at hc₁ hc₂
    omega
  · have h1 : List.Pairwise (fun a b => a ≠ b) (sprite.enum.map Prod.fst) :=
      List.nodup_enum_map_fst sprite
    rw [List.pairwise_map] at h1
    refine h1.imp_of_mem ?_
    intro p q hp hq hne z hzp hzq
    obtain ⟨c₁, hc₁, hz₁⟩ := List.mem_map.1 hzp
    obtain ⟨c₂, hc₂, hz₂⟩ := List.mem_map.1 hzq
    rw [List.mem_range] at hc₁ hc₂
    have hpl : p.1 < sprite.length := mem_enum_fst_lt hp
    have hql : q.1 < sprite.length := mem_enum_fst_lt hq
    refine hne ?_
    rw [← hz₂] at hz₁
    omega

/-- **C6.**  For every framebuffer state, coordinates and sprite of at
most 15 bytes, drawing the same sprite at the same position twice
restores the framebuffer exactly, and the second draw reports
`collision = true` iff the first draw left at least one sprite pixel set
(a touched position whose sprite bit is 1 that is set after the first
draw). -/
theorem c6_draw_twice (buf : List Bool) (x y : Nat) (sprite : List Nat)
    (_hbuf : buf.length = 2048) (hs : sprite.length ≤ 15) :
    (drawSprite (drawSprite buf x y sprite).1 x y sprite).1 = buf ∧
    ((drawSprite (drawSprite buf x y sprite).1 x y sprite).2 = true ↔
      ∃ op ∈ pixelOps x y sprite, op.2 = true ∧
        (drawSprite buf x y sprite).1.getD op.1 false = true) := by
  have hnd := pixelOps_nodup x y sprite (by omega)
  have h1 : drawSprite buf x y sprite =
      (bufAfter buf (pixelOps x y sprite), collAfter buf (pixelOps x y sprite)) := by
    rw [drawSprite_eq_applyOps, applyOps_eq, Bool.false_or]
  have h2 : drawSprite (bufAfter buf (pixelOps x y sprite)) x y sprite =
      (bufAfter (bufAfter buf (pixelOps x y sprite)) (pixelOps x y sprite),
        collAfter (bufAfter buf (pixelOps x y sprite)) (pixelOps x y sprite)) := by
    rw [drawSprite_eq_applyOps, applyOps_eq, Bool.false_or]
  rw [h1]
  show (drawSprite (bufAfter buf (pixelOps x y sprite)) x y sprite).1 = buf ∧
    ((drawSprite (bufAfter buf (pixelOps x y sprite)) x y sprite).2 = true ↔
      ∃ op ∈ pixelOps x y sprite, op.2 = true ∧
        (bufAfter buf (pixelOps x y sprite)).getD op.1 false = true)
  rw [h2]
  show bufAfter (bufAfter buf (pixelOps x y sprite)) (pixelOps x y sprite) = buf ∧
    (collAfter (bufAfter buf (pixelOps x y sprite)) (pixelOps x y sprite) = true ↔
      ∃ op ∈ pixelOps x y sprite, op.2 = true ∧
        (bufAfter buf (pixelOps x y sprite)).getD op.1 false = true)
  constructor
  · exact bufAfter_twice _ _ hnd
  · rw [collAfter_eq_any _ _ hnd, List.any_eq_true]
    constructor
    · rintro ⟨op, hmem, hp⟩
      rw [Bool.and_eq_true] at hp
      exact ⟨op, hmem, hp.2, hp.1⟩
    · rintro ⟨op, hmem, hb, hg⟩
      exact ⟨op, hmem, by rw [Bool.and_eq_true]; exact ⟨hg, hb⟩⟩

/-- **C6 — witness** for `c6_draw_twice` on the empty 2048-bit
framebuffer with the one-byte sprite `0x80`. -/
theorem c6_draw_twice_witness :
    (List.replicate 2048 false).length = 2048 ∧ ([0x80] : List Nat).length ≤ 15 ∧
    ((drawSprite (drawSprite (List.replicate 2048 false) 0 0 [0x80]).1 0 0 [0x80]).1 =
        List.replicate 2048 false ∧
      ((drawSprite (drawSprite (List.replicate 2048 false) 0 0 [0x80]).1 0 0 [0x80]).2 = true ↔
        ∃ op ∈ pixelOps 0 0 [0x80], op.2 = true ∧
          (drawSprite (List.replicate 2048 false) 0 0 [0x80]).1.getD op.1 false = true)) :=
  ⟨by rw [List.length_replicate], by decide,
    c6_draw_twice _ 0 0 _ (by rw [List.length_replicate]) (by decide)⟩

end C8
